import Mathlib

/-!
Verification of the AetherMind workflow node-execution engine
(`src/lib/workflow/executors/mcp.ts`, `src/lib/workflow/executors/agent.ts`,
and the HTTP executor).  The TypeScript sources are shallowly embedded:
JavaScript runtime values are modelled by `JSValue`, exceptions by
`Except String`, ambient effects (SDK calls, `fetch`, `process.env`,
external helper modules) by explicit environment records of oracle
functions, and the mutable `WorkflowState` by explicit state passing.
Host-object prototype properties (e.g. methods inherited from
`Object.prototype`) are not modelled; property access on data values is.
-/

namespace AetherMind

/-- Model of a JavaScript runtime value (JSON values plus `undefined`).
Numbers are modelled as integers, which covers every numeric value the
embedded code manipulates (token counts, HTTP statuses, array indices). -/
inductive JSValue where
  | undef : JSValue
  | null : JSValue
  | bool : Bool → JSValue
  | num : Int → JSValue
  | str : String → JSValue
  | arr : List JSValue → JSValue
  | obj : List (String × JSValue) → JSValue
deriving Repr, Inhabited

namespace JSValue

/-- JavaScript truthiness: `undefined`, `null`, `false`, `0` and `""` are
falsy; every other value (including `[]` and `\x7b\x7d`) is truthy. -/
def truthy : JSValue → Bool
  | undef => false
  | null => false
  | bool b => b
  | num n => !(n = 0)
  | str s => !(s = "")
  | arr _ => true
  | obj _ => true

/-- First binding of a key in a JavaScript object literal model. -/
def lookupField (fs : List (String × JSValue)) (k : String) : Option JSValue :=
  (fs.find? (fun p => p.1 == k)).map (·.2)

/-- A string is a canonical array index ("0", "1", "2", ... without
leading zeros), as used when a string key addresses a JS array element. -/
def canonicalIndex? (s : String) : Option Nat :=
  let cs := s.toList
  if cs ≠ [] ∧ cs.all Char.isDigit ∧ (s = "0" ∨ cs.head? ≠ some '0') then
    some (cs.foldl (fun n c => 10 * n + (c.toNat - 48)) 0)
  else none

/-- Property access `v?.[k]` with optional chaining: `undefined`/`null`
receivers yield `undefined`; objects look the key up; arrays answer
canonical numeric keys and `length`; strings answer indices and `length`;
other primitives have no own data properties. -/
def safeGet : JSValue → String → JSValue
  | undef, _ => undef
  | null, _ => undef
  | obj fs, k => (lookupField fs k).getD undef
  | arr xs, k =>
      if k = "length" then num xs.length
      else match canonicalIndex? k with
        | some i => (xs.get? i).getD undef
        | none => undef
  | str s, k =>
      if k = "length" then num s.length
      else match canonicalIndex? k with
        | some i => (s.toList.get? i).elim undef (fun c => str (String.mk [c]))
        | none => undef
  | _, _ => undef

/-- Plain property access `v[k]`: a `TypeError` is raised when the
receiver is `null` or `undefined`; otherwise as `safeGet`. -/
def strictGet : JSValue → String → Except String JSValue
  | null, k => .error ("TypeError: Cannot read properties of null (reading " ++ k ++ ")")
  | undef, k => .error ("TypeError: Cannot read properties of undefined (reading " ++ k ++ ")")
  | v, k => .ok (safeGet v k)

mutual

/-- `noNull v` holds when `null` occurs nowhere inside `v`. -/
def noNull : JSValue → Bool
  | undef => true
  | null => false
  | bool _ => true
  | num _ => true
  | str _ => true
  | arr xs => noNullList xs
  | obj fs => noNullFields fs

/-- `noNull` on a list of values. -/
def noNullList : List JSValue → Bool
  | [] => true
  | x :: xs => noNull x && noNullList xs

/-- `noNull` on object fields. -/
def noNullFields : List (String × JSValue) → Bool
  | [] => true
  | (_, v) :: fs => noNull v && noNullFields fs

end

end JSValue

/-- Structural splitter used to model JavaScript `String.prototype.split`
with a one-character separator (e.g. `path.split('.')`): `""` splits to
`[""]`, separators at the ends produce empty segments. -/
def splitOnCharAux (c : Char) : List Char → List Char → List String
  | [], acc => [String.mk acc.reverse]
  | x :: xs, acc =>
      if x = c then String.mk acc.reverse :: splitOnCharAux c xs []
      else splitOnCharAux c xs (x :: acc)

/-- `s.split(c)` for a single-character separator. -/
def splitOnChar (c : Char) (s : String) : List String := splitOnCharAux c s.toList []

/-- `needle` occurs at the head of `hay`. -/
def listStartsWith : List Char → List Char → Bool
  | [], _ => true
  | _ :: _, [] => false
  | n :: ns, h :: hs => n = h && listStartsWith ns hs

/-- `hay` contains `needle` as a contiguous run. -/
def hasSub (hay needle : List Char) : Bool :=
  match hay with
  | [] => needle.isEmpty
  | _ :: t => listStartsWith needle hay || hasSub t needle

/-- JavaScript `s.includes(sub)`. -/
def jsIncludes (s sub : String) : Bool := hasSub s.toList sub.toList

/-- JavaScript `s.startsWith(pre)`. -/
def jsStartsWith (s pre : String) : Bool := listStartsWith pre.toList s.toList

/-- JavaScript `s.toLowerCase()` (ASCII, which covers every string the
embedded code lower-cases). -/
def lowerString (s : String) : String := String.mk (s.toList.map Char.toLower)

/-- Characters matched by the `\w` class of the segment regex
`^(\w+)\[(\d+)\]$` in `getNestedValue`. -/
def isWordChar (c : Char) : Bool := c.isAlphanum || c = '_'

/-- `parseInt` on a non-empty digit string. -/
def natOfDigits (cs : List Char) : Nat := cs.foldl (fun n c => 10 * n + (c.toNat - 48)) 0

/-- Matching a path segment against `^(\w+)\[(\d+)\]$` (from
`getNestedValue` in `mcp.ts`): a non-empty word-character name, `[`, a
non-empty digit run, and a closing `]` ending the segment. -/
def parseArraySegment (s : String) : Option (String × Nat) :=
  let cs := s.toList
  let name := cs.takeWhile isWordChar
  match name, cs.dropWhile isWordChar with
  | [], _ => none
  | _, '[' :: rest =>
      let digits := rest.takeWhile Char.isDigit
      match digits, rest.dropWhile Char.isDigit with
      | [], _ => none
      | _, [']'] => some (String.mk name, natOfDigits digits)
      | _, _ => none
  | _, _ => none

/-- The walking loop of `getNestedValue` (`mcp.ts` lines 51-69): for each
dot-separated part, an array-style segment does `current[arrayName]?.[i]`
(note the non-optional first access) and a plain segment does
`current?.[part]`; the loop breaks as soon as the current value is
`undefined`. -/
def getNestedValueGo : JSValue → List String → Except String JSValue
  | current, [] => .ok current
  | current, part :: rest => do
      let next ← match parseArraySegment part with
        | some (name, idx) => do
            let a ← current.strictGet name
            pure (a.safeGet (toString idx))
        | none => pure (current.safeGet part)
      match next with
      | .undef => pure .undef
      | _ => getNestedValueGo next rest

/-- `getNestedValue(obj, path)` from `mcp.ts`. -/
def getNestedValue (object : JSValue) (path : String) : Except String JSValue :=
  getNestedValueGo object (splitOnChar '.' path)

/-- The predefined-field `switch` of `extractField` (`mcp.ts` lines 17-45). -/
def extractFieldSwitch (data : JSValue) (field : String) : Except String JSValue :=
  match field with
  | "markdown" => do
      let m ← data.strictGet "markdown"
      pure (if m.truthy then m else data)
  | "html" => do
      let h ← data.strictGet "html"
      pure (if h.truthy then h else data)
  | "metadata" => do
      let m ← data.strictGet "metadata"
      pure (if m.truthy then m else .obj [])
  | "results" => do
      let r ← data.strictGet "results"
      pure (if r.truthy then r else data)
  | "urls" => do
      let r ← data.strictGet "results"
      match r with
      | .arr xs => do
          let us ← xs.mapM (fun x => x.strictGet "url")
          pure (.arr us)
      | _ => do
          let u ← data.strictGet "urls"
          match u with
          | .arr _ => pure u
          | _ => do
              let l ← data.strictGet "links"
              match l with
              | .arr _ => pure l
              | _ => pure data
  | "first" => do
      let r ← data.strictGet "results"
      let f := r.safeGet "0"
      if f.truthy then pure f
      else do
        let z ← data.strictGet "0"
        pure (if z.truthy then z else data)
  | "json" => do
      let j ← data.strictGet "json"
      if j.truthy then pure j
      else do
        let d ← data.strictGet "data"
        pure (if d.truthy then d else data)
  | _ => do
      let v ← data.strictGet field
      pure (if v.truthy then v else data)

/-- `extractField(data, field, customPath?)` from `mcp.ts` lines 11-46:
`"full"` returns the data verbatim; `"custom"` with a truthy path walks
`getNestedValue`; everything else goes through the predefined switch. -/
def extractField (data : JSValue) (field : String) (customPath : Option String := none) :
    Except String JSValue :=
  if field = "full" then .ok data
  else
    match field, customPath with
    | "custom", some p => if p = "" then extractFieldSwitch data field else getNestedValue data p
    | _, _ => extractFieldSwitch data field

/-- Modelled from the spec: "returns the same value as manually indexing
`obj.a.b[1].c`, and returns undefined (not throwing) if any segment is
absent" — the ideal never-throwing walk along the dot-separated segments,
with `name[index]` segments reading the named field and then the index. -/
def manualIndexSegs : JSValue → List String → JSValue
  | v, [] => v
  | v, seg :: rest =>
      match parseArraySegment seg with
      | some (name, idx) => manualIndexSegs ((v.safeGet name).safeGet (toString idx)) rest
      | none => manualIndexSegs (v.safeGet seg) rest

/-- Modelled from the spec: manual indexing of `obj` along a dot-separated
path, absent segments yielding `undefined`. -/
def manualIndex (v : JSValue) (path : String) : JSValue :=
  manualIndexSegs v (splitOnChar '.' path)

/-! ## Workflow state and node model -/

/-- A role-tagged chat message. -/
structure ChatMsg where
  role : String
  content : String
deriving Repr

/-- First-occurrence update of a key in an object/record model (used for
the JS property write `state.variables.lastOutput = v`). -/
def setField : List (String × JSValue) → String → JSValue → List (String × JSValue)
  | [], k, v => [(k, v)]
  | (k', w) :: fs, k, v => if k' == k then (k, v) :: fs else (k', w) :: setField fs k v

/-- The execution state threaded between workflow steps. -/
structure WorkflowState where
  vars : List (String × JSValue)
  chatHistory : List ChatMsg
deriving Repr

/-- Read `state.variables?.name` (absent keys give `undefined`). -/
def WorkflowState.getVar (s : WorkflowState) (k : String) : JSValue :=
  ((JSValue.lookupField s.vars k).getD .undef)

/-- The JS property write `state.variables.k = v`. -/
def WorkflowState.setVar (s : WorkflowState) (k : String) (v : JSValue) : WorkflowState :=
  { s with vars := setField s.vars k v }

/-- Truthiness of an optional string (absent and `""` are falsy). -/
def strTruthy : Option String → Bool
  | some s => !(s = "")
  | none => false

/-- JS `a || d` for an optional string with a string default. -/
def jsOrStr (a : Option String) (d : String) : String :=
  match a with
  | some s => if s = "" then d else s
  | none => d

/-- JS `a || d` for an optional numeric option (absent and `0` are falsy). -/
def jsOrNum (a : Option Int) (d : Int) : Int :=
  match a with
  | some n => if n = 0 then d else n
  | none => d

/-- A resolved MCP tool-server connection (as consumed by `mcp.ts`). -/
structure MCPServerConfig where
  name : String
  url : String
  accessToken : Option String := none
deriving Repr

/-- The declared JSON-schema of a tool (as consumed by `agent.ts`). -/
structure MCPSchema where
  properties : Option JSValue := none
  required : Option (List JSValue) := none
deriving Repr

/-- A resolved MCP tool descriptor (as consumed by `agent.ts`). -/
structure MCPTool where
  name : Option String := none
  toolName : Option String := none
  description : Option String := none
  url : String := ""
  accessToken : Option String := none
  authToken : Option String := none
  schema : Option MCPSchema := none
deriving Repr

/-- One `key`/`value` entry of the `httpHeaders` node option. -/
structure HTTPHeaderEntry where
  key : Option String := none
  value : Option String := none
deriving Repr

/-- The free-form `data` payload of a workflow node: the union of the
keyed options the three executors read. -/
structure NodeData where
  nodeName : Option String := none
  instructions : Option String := none
  model : Option String := none
  includeChatHistory : Bool := false
  outputFormat : Option String := none
  mcpServers : Option (List MCPServerConfig) := none
  mcpServerId : Option String := none
  mcpAction : Option String := none
  scrapeUrl : Option String := none
  mapUrl : Option String := none
  crawlUrl : Option String := none
  searchQuery : Option String := none
  searchLimit : Option Int := none
  crawlLimit : Option Int := none
  useJsonMode : Bool := false
  outputField : Option String := none
  customOutputPath : Option String := none
  mcpTools : Option (List MCPTool) := none
  mcpServerIds : Option (List String) := none
  httpUrl : Option String := none
  httpMethod : Option String := none
  httpHeaders : Option (List HTTPHeaderEntry) := none
  httpAuthType : Option String := none
  httpAuthToken : Option String := none
  httpBody : Option String := none

/-- A workflow node: identifier plus step configuration. -/
structure WorkflowNode where
  id : String
  data : NodeData

/-! ## MCP (remote-tool) executor — `src/lib/workflow/executors/mcp.ts` -/

/-- Ambient effects of `executeMCPNode`: the tool-server resolver, the
server-side API-key store, the Firecrawl SDK, `process.env` switches, the
variable-substitution leaf and the `JSON.stringify` builtin. -/
structure MCPEnv where
  resolveMCPServer : String → Option MCPServerConfig
  firecrawlKey : Option String
  firecrawlScrape : String → List String → Except String JSValue
  firecrawlSearch : String → Int → Except String JSValue
  firecrawlMap : String → Except String JSValue
  firecrawlCrawl : String → Int → Except String JSValue
  useFallbackData : Option String
  demoMode : Option String
  subst : String → WorkflowState → String
  jsonStringify : JSValue → String

/-- `getUrl` (`mcp.ts` lines 178-198): explicit templated URL if it
substitutes to an http-prefixed string, else URL-shaped `lastOutput`, else
`lastOutput.url`, else URL-shaped `input`, else the documented default. -/
def getUrl (env : MCPEnv) (d : NodeData) (state : WorkflowState) : String :=
  let explicitUrl : Option String :=
    if strTruthy d.scrapeUrl then d.scrapeUrl
    else if strTruthy d.mapUrl then d.mapUrl
    else if strTruthy d.crawlUrl then d.crawlUrl
    else none
  let viaExplicit : Option String :=
    match explicitUrl with
    | some u =>
        let substituted := env.subst u state
        if substituted ≠ "" ∧ jsStartsWith substituted "http" then some substituted else none
    | none => none
  match viaExplicit with
  | some u => u
  | none =>
      let lastOutput := state.getVar "lastOutput"
      let step3 : String :=
        match state.getVar "input" with
        | .str s => if jsStartsWith s "http" then s else "https://example.com"
        | _ => "https://example.com"
      let step2 : String :=
        match lastOutput.safeGet "url" with
        | .str u => if u ≠ "" then u else step3
        | _ => step3
      match lastOutput with
      | .str s => if jsStartsWith s "http" then s else step2
      | _ => step2

/-- `getSearchQuery` (`mcp.ts` lines 201-217): explicit templated query if
it substitutes non-empty, else non-URL `lastOutput`, else non-URL `input`,
else the fixed default phrase. -/
def getSearchQuery (env : MCPEnv) (d : NodeData) (state : WorkflowState) : String :=
  let viaExplicit : Option String :=
    if strTruthy d.searchQuery then
      let s := env.subst (d.searchQuery.getD "") state
      if s ≠ "" then some s else none
    else none
  match viaExplicit with
  | some s => s
  | none =>
      let fromInput : String :=
        match state.getVar "input" with
        | .str s => if !jsStartsWith s "http" then s else "latest tech news"
        | _ => "latest tech news"
      match state.getVar "lastOutput" with
      | .str s => if !jsStartsWith s "http" then s else fromInput
      | _ => fromInput

/-- One synthetic search hit of the demo fallback payloads. -/
def searchHit (url title description : String) (position : Int) : JSValue :=
  .obj [("url", .str url), ("title", .str title),
        ("description", .str description), ("position", .num position)]

/-- The Yahoo-Finance-shaped fallback payload (`mcp.ts` lines 226-249). -/
def stockFallbackResults : JSValue :=
  .obj [("web", .arr [
    searchHit "https://finance.yahoo.com/quote/NVDA"
      "NVIDIA Corporation (NVDA) - Yahoo Finance"
      "NVIDIA Corporation (NVDA) stock quote, history, news and other vital information. Current price: $150.25 | Change: +$2.50 (+1.69%) | Market Cap: $3.7T | P/E Ratio: 75.2 | 52 Week High: $180.00 | 52 Week Low: $39.23" 1,
    searchHit "https://finance.yahoo.com/news/nvidia-stock-analysis"
      "NVIDIA Stock Analysis and Latest News"
      "Latest news: Strong earnings report, AI chip demand continues to grow. Analysts maintain buy rating with price target of $200." 2,
    searchHit "https://finance.yahoo.com/quote/NVDA/key-statistics"
      "NVIDIA Key Statistics"
      "Trading volume: 45.2M | Beta: 1.68 | EPS: $2.00 | Dividend: $0.16 | Ex-dividend date: 2025-03-05" 3])]

/-- The Amazon-product-shaped fallback payload (`mcp.ts` lines 250-273). -/
def amazonFallbackResults : JSValue :=
  .obj [("web", .arr [
    searchHit "https://www.amazon.com/dp/B08XYZ1234"
      "Logitech MX Master 3S Wireless Mouse - Amazon"
      "Price: $99.99 | Rating: 4.7/5 stars (12,345 reviews) | Features: Ergonomic design, 7,000 DPI sensor, 70-day battery, USB-C charging, multi-device connectivity" 1,
    searchHit "https://www.amazon.com/dp/B09ABC5678"
      "Razer DeathAdder V3 Pro Wireless Gaming Mouse"
      "Price: $149.99 | Rating: 4.6/5 stars (8,901 reviews) | Features: 30,000 DPI sensor, 90-hour battery, lightweight 63g design, optical switches" 2,
    searchHit "https://www.amazon.com/dp/B07DEF4567"
      "Apple Magic Mouse - Wireless Mouse"
      "Price: $79.00 | Rating: 4.2/5 stars (5,678 reviews) | Features: Multi-touch surface, rechargeable battery, seamless integration with Mac" 3])]

/-- The generic-research-shaped fallback payload (`mcp.ts` lines 274-310). -/
def genericFallbackResults : JSValue :=
  .obj [("web", .arr [
    searchHit "https://techcrunch.com/2025/01/ai-trends-2025"
      "Top AI Trends Shaping 2025: What to Watch"
      "Key trends include multimodal AI models, agentic AI systems, edge AI deployment, and AI safety regulations. Industry experts predict significant growth in AI adoption across sectors." 1,
    searchHit "https://www.mckinsey.com/ai-trends-2025"
      "AI Trends 2025: Market Analysis and Predictions"
      "Market research shows AI spending will reach $200B by 2025. Key areas: generative AI tools, AI-powered automation, and AI-enhanced decision-making systems." 2,
    searchHit "https://venturebeat.com/ai/ai-trends-2025"
      "The Future of AI: 10 Trends to Watch in 2025"
      "Experts highlight trends in AI governance, responsible AI development, AI-native applications, and the convergence of AI with other emerging technologies." 3,
    searchHit "https://www.gartner.com/ai-trends-2025"
      "Gartner AI Trends Report 2025"
      "Gartner identifies key AI trends: AI democratization, AI trust and transparency, AI-augmented development, and the rise of composite AI architectures." 4,
    searchHit "https://www.forbes.com/ai-trends-2025"
      "AI in 2025: What Business Leaders Need to Know"
      "Business-focused analysis of AI trends including ROI metrics, AI integration strategies, and the impact of AI on workforce productivity and business models." 5])]

/-- `generateFallbackSearchResults` (`mcp.ts` lines 220-311): keyword
sniffing over the lower-cased query; the source also computes an unused
research flag (`research`/`trends`/`ai`), whose case is the final else. -/
def generateFallbackSearchResults (query : String) : JSValue :=
  let queryLower := lowerString query
  let isStock := jsIncludes queryLower "stock" || jsIncludes queryLower "yahoo finance" ||
    jsIncludes queryLower "ticker"
  let isAmazon := jsIncludes queryLower "amazon" || jsIncludes queryLower "product"
  if isStock then stockFallbackResults
  else if isAmazon then amazonFallbackResults
  else genericFallbackResults

/-- One entry of the `results` array of an MCP result envelope. -/
structure MCPResultEntry where
  server : String
  tool : Option String := none
  success : Bool
  error : Option String := none
  data : Option JSValue := none
deriving Repr

/-- One tool-call record surfaced by the MCP executor. -/
structure MCPToolCall where
  name : String
  arguments : JSValue
  output : JSValue
deriving Repr

/-- The envelope returned by the Firecrawl arm of `executeMCPNode`; the
`fallbackFlag` field models the `_fallback` marker (absent means the
marker is not set). -/
structure FirecrawlEnvelope where
  results : List MCPResultEntry
  extractedField : Option String
  output : JSValue
  mcpServers : List String
  toolCalls : List MCPToolCall
  fallbackFlag : Bool := false
deriving Repr

/-- The possible non-throwing return shapes of `executeMCPNode`:
the early error-object return, a Firecrawl envelope, or the final
generic-loop envelope. -/
inductive MCPOutcome where
  | errorResult (error : String)
  | firecrawl (envelope : FirecrawlEnvelope)
  | generic (results : List MCPResultEntry) (mcpServers : List String)
deriving Repr

/-- Result of `executeGenericMCPServer`. -/
structure GenericMCPResult where
  tool : String
  data : JSValue
deriving Repr

/-- Characters of the class `[a-zA-Z0-9-]` of the repo regex in
`executeGenericMCPServer`. -/
def isRepoChar (c : Char) : Bool := c.isAlphanum || c = '-'

/-- Leftmost match of `([a-zA-Z0-9-]+\/[a-zA-Z0-9-]+)` in a string
(the repo-extraction regex of `executeGenericMCPServer`). -/
def firstRepoMatchGo : List Char → Option String
  | [] => none
  | c :: rest =>
      let r1 := (c :: rest).takeWhile isRepoChar
      if r1 ≠ [] then
        match (c :: rest).drop r1.length with
        | '/' :: rest2 =>
            let r2 := rest2.takeWhile isRepoChar
            if r2 ≠ [] then some (String.mk (r1 ++ '/' :: r2))
            else firstRepoMatchGo rest
        | _ => firstRepoMatchGo rest
      else firstRepoMatchGo rest

/-- JS `inputText.match(repoRegex)` extracting the first repo-shaped
substring. -/
def firstRepoMatch (s : String) : Option String := firstRepoMatchGo s.toList

/-- `executeGenericMCPServer` (`mcp.ts` lines 74-119): DeepWiki-style
servers get a placeholder response selected by keyword sniffing; any other
server name throws `NotImplemented`. -/
def executeGenericMCPServer (env : MCPEnv) (serverConfig : MCPServerConfig)
    (state : WorkflowState) : Except String GenericMCPResult :=
  let input :=
    let i := state.getVar "input"
    if i.truthy then i else state.getVar "lastOutput"
  let serverName := lowerString serverConfig.name
  if jsIncludes serverName "deepwiki" || jsIncludes serverName "devin" then
    let inputText := match input with | .str s => s | v => env.jsonStringify v
    let repo := (firstRepoMatch inputText).getD "anthropics/anthropic-sdk-python"
    let toolParams : String × JSValue :=
      if jsIncludes inputText "wiki structure" || jsIncludes inputText "topics" then
        ("read_wiki_structure", JSValue.obj [("repository", .str repo)])
      else if jsIncludes inputText "wiki content" || jsIncludes inputText "documentation" then
        ("read_wiki_contents", JSValue.obj [("repository", .str repo)])
      else
        ("ask_question", JSValue.obj [("repository", .str repo), ("question", .str inputText)])
    .ok { tool := toolParams.1,
          data := JSValue.obj [
            ("server", .str "DeepWiki"),
            ("tool", .str toolParams.1),
            ("params", toolParams.2),
            ("note", .str "DeepWiki MCP execution is not yet implemented. This is a placeholder response."),
            ("input", .str inputText),
            ("suggestedImplementation",
              .str ("Call the DeepWiki MCP server API at " ++ serverConfig.url))] }
  else
    .error ("MCP server \"" ++ serverConfig.name ++
      "\" execution not yet implemented. Server URL: " ++ serverConfig.url)

/-! ## Definitions used by the claim statements -/

/-- The data carried by the last successful entry of a generic-loop
result list (the value the loop leaves in `lastOutput`). -/
def lastSuccessData (entries : List MCPResultEntry) : Option JSValue :=
  (entries.filterMap fun e => if e.success then e.data else none).getLast?

/-- The fallback policy switch shared by both executors: enabled when
`USE_FALLBACK_DATA` is the string `true` or `DEMO_MODE` is anything but
the string `false`. -/
def fallbackEnabled (useFallbackData demoMode : Option String) : Bool :=
  useFallbackData == some "true" || !(demoMode == some "false")

/-- The `catch` block of the Firecrawl arm (`mcp.ts` lines 371-411):
with the demo policy enabled and a `search` action, substitute the
synthetic payload, mark `_fallback` and keep going; otherwise re-throw a
descriptive error. -/
def firecrawlCatch (env : MCPEnv) (node : WorkflowNode) (state : WorkflowState)
    (action : String) (errMsg : String) : Except String MCPOutcome × WorkflowState :=
  let d := node.data
  let useFallback := fallbackEnabled env.useFallbackData env.demoMode
  if useFallback ∧ action = "search" then
    let query := getSearchQuery env d state
    let fallbackResults := generateFallbackSearchResults query
    let extractRes : Except String JSValue :=
      if strTruthy d.outputField ∧ d.outputField ≠ some "full" then
        extractField fallbackResults (d.outputField.getD "") d.customOutputPath
      else .ok fallbackResults
    match extractRes with
    | .error e => (.error e, state)
    | .ok outputData =>
        let state' := state.setVar "lastOutput" outputData
        (.ok (.firecrawl {
          results := [{ server := "Firecrawl", tool := some action, success := false,
                        error := some "Using fallback data", data := some fallbackResults }],
          extractedField := d.outputField,
          output := outputData,
          mcpServers := ["Firecrawl"],
          toolCalls := [{ name := "firecrawl_" ++ action,
                          arguments := .obj [("action", .str action), ("query", .str query)],
                          output := fallbackResults }],
          fallbackFlag := true }), state')
  else
    (.error ("Firecrawl " ++ action ++ " failed: " ++ errMsg), state)

/-- The Firecrawl arm of the `executeMCPNode` server loop (`mcp.ts` lines
162-412): key check, action dispatch against the SDK, field extraction,
`lastOutput` write and envelope construction, with failures routed to
`firecrawlCatch`. -/
def runFirecrawlServer (env : MCPEnv) (node : WorkflowNode) (state : WorkflowState) :
    Except String MCPOutcome × WorkflowState :=
  let d := node.data
  if !strTruthy env.firecrawlKey then
    (.error "FIRECRAWL_API_KEY not configured. Add it to your .env.local file:\nFIRECRAWL_API_KEY=your_key_here",
     state)
  else
    let action := jsOrStr d.mcpAction "scrape"
    let callResult : Except String JSValue :=
      match action with
      | "scrape" =>
          env.firecrawlScrape (getUrl env d state)
            (if d.useJsonMode then ["json"] else ["markdown", "html"])
      | "search" => env.firecrawlSearch (getSearchQuery env d state) (jsOrNum d.searchLimit 5)
      | "map" => env.firecrawlMap (getUrl env d state)
      | "crawl" => env.firecrawlCrawl (getUrl env d state) (jsOrNum d.crawlLimit 10)
      | _ => .error ("Unknown Firecrawl action: " ++ action)
    match callResult with
    | .error e => firecrawlCatch env node state action e
    | .ok result =>
        let extractRes : Except String JSValue :=
          if strTruthy d.outputField ∧ d.outputField ≠ some "full" then
            extractField result (d.outputField.getD "") d.customOutputPath
          else .ok result
        match extractRes with
        | .error e => firecrawlCatch env node state action e
        | .ok outputData =>
            let state' := state.setVar "lastOutput" outputData
            (.ok (.firecrawl {
              results := [{ server := "Firecrawl", tool := some action, success := true,
                            data := some result }],
              extractedField := d.outputField,
              output := outputData,
              mcpServers := ["Firecrawl"],
              toolCalls := [{ name := "firecrawl_" ++ action,
                              arguments := .obj [("action", .str action),
                                                 ("url", .str (getUrl env d state)),
                                                 ("query", .str (getSearchQuery env d state))],
                              output := result }] }), state')

/-- The per-server loop of `executeMCPNode` (`mcp.ts` lines 160-439): a
Firecrawl-named server returns its envelope from inside the loop; generic
servers accumulate per-server entries (on success also writing
`lastOutput`) and the loop falls through to the generic envelope. -/
def mcpServerLoop (env : MCPEnv) (node : WorkflowNode) (allNames : List String) :
    List MCPServerConfig → WorkflowState → List MCPResultEntry →
    Except String MCPOutcome × WorkflowState
  | [], state, acc => (.ok (.generic acc.reverse allNames), state)
  | cfg :: rest, state, acc =>
      if jsIncludes (lowerString cfg.name) "firecrawl" then
        runFirecrawlServer env node state
      else
        match executeGenericMCPServer env cfg state with
        | .ok r =>
            let entry : MCPResultEntry :=
              { server := cfg.name,
                tool := some (if r.tool = "" then "unknown" else r.tool),
                success := true, data := some r.data }
            let state' := state.setVar "lastOutput" r.data
            mcpServerLoop env node allNames rest state' (entry :: acc)
        | .error msg =>
            let entry : MCPResultEntry := { server := cfg.name, error := some msg, success := false }
            mcpServerLoop env node allNames rest state (entry :: acc)

/-- `executeMCPNode` from `mcp.ts` lines 125-440: server resolution, the
empty-configuration error result, and the per-server loop. -/
def executeMCPNode (env : MCPEnv) (node : WorkflowNode) (state : WorkflowState) :
    Except String MCPOutcome × WorkflowState :=
  let d := node.data
  let inlineServers : List MCPServerConfig := d.mcpServers.getD []
  let mcpServers : List MCPServerConfig :=
    if strTruthy d.mcpServerId then
      match env.resolveMCPServer (d.mcpServerId.getD "") with
      | some resolved => [resolved]
      | none => inlineServers
    else inlineServers
  if mcpServers.isEmpty then
    (.ok (.errorResult "No MCP servers configured or could not resolve server"), state)
  else
    mcpServerLoop env node (mcpServers.map (·.name)) mcpServers state []

/-! ## Agent executor — `src/lib/workflow/executors/agent.ts` -/

/-- Provider API keys passed to `executeAgentNode`. -/
structure APIKeys where
  anthropic : Option String := none
  groq : Option String := none
  openai : Option String := none
  firecrawl : Option String := none
  gemini : Option String := none
  aimlapi : Option String := none
deriving Repr

/-- The `LLMUsage` record of `agent.ts` (lines 102-109): optional token
fields; the catch-all index signature is never read and is omitted. -/
structure LLMUsage where
  input_tokens : Option Int := none
  output_tokens : Option Int := none
  total_tokens : Option Int := none
  prompt_tokens : Option Int := none
  completion_tokens : Option Int := none
deriving Repr

/-- The usage summation of the OpenAI tool path (`agent.ts` lines
299-304): spread the running usage and overwrite the three token fields
with the field-wise `(usage.f || 0) + (finalResponse.usage?.f || 0)`. -/
def combineUsage (usage : LLMUsage) (finalUsage : Option LLMUsage) : LLMUsage :=
  { usage with
    prompt_tokens :=
      some ((usage.prompt_tokens.getD 0) + ((finalUsage.bind (·.prompt_tokens)).getD 0)),
    completion_tokens :=
      some ((usage.completion_tokens.getD 0) + ((finalUsage.bind (·.completion_tokens)).getD 0)),
    total_tokens :=
      some ((usage.total_tokens.getD 0) + ((finalUsage.bind (·.total_tokens)).getD 0)) }

/-- JS strict equality `v === s` against a string literal. -/
def eqStr (v : JSValue) (s : String) : Bool :=
  match v with
  | .str t => t == s
  | _ => false

/-- JS `typeof v === "object"` (true for objects, arrays and `null`). -/
def typeofObject : JSValue → Bool
  | .obj _ => true
  | .arr _ => true
  | .null => true
  | _ => false

/-- JS `a ?? b`: keep `a` unless it is `undefined` or `null`. -/
def nullish (a b : JSValue) : JSValue :=
  match a with
  | .undef => b
  | .null => b
  | v => v

/-- Structural string join (models `Array.prototype.join` on strings). -/
def joinStrings (sep : String) : List String → String
  | [] => ""
  | [x] => x
  | x :: xs => x ++ sep ++ joinStrings sep xs

mutual

/-- JS `String(v)` coercion (sufficient for the shapes the code joins or
interpolates). -/
def coerceString : JSValue → String
  | .undef => "undefined"
  | .null => "null"
  | .bool b => cond b "true" "false"
  | .num n => toString n
  | .str s => s
  | .arr xs => coerceJoin xs
  | .obj _ => "[object Object]"

/-- Array `toString`: elements joined by commas, `undefined`/`null`
elements becoming empty. -/
def coerceJoin : List JSValue → String
  | [] => ""
  | [x] => coerceElem x
  | x :: xs => coerceElem x ++ "," ++ coerceJoin xs

/-- One element under `Array.prototype.join` coercion. -/
def coerceElem : JSValue → String
  | .undef => ""
  | .null => ""
  | v => coerceString v

end

/-- `Array.prototype.join(sep)` on arbitrary values. -/
def joinJSValues (sep : String) (xs : List JSValue) : String :=
  joinStrings sep (xs.map fun v =>
    match v with
    | .undef => ""
    | .null => ""
    | v => coerceString v)

/-- First-occurrence string replacement (JS `s.replace(pat, rep)` with a
string pattern). -/
def replaceFirstGo (pat rep : List Char) : List Char → List Char
  | [] => []
  | c :: rest =>
      if listStartsWith pat (c :: rest) then rep ++ (c :: rest).drop pat.length
      else c :: replaceFirstGo pat rep rest

/-- JS `s.replace(pat, rep)` for string patterns (first occurrence). -/
def jsReplaceFirst (s pat rep : String) : String :=
  String.mk (replaceFirstGo pat.toList rep.toList s.toList)

/-- Split a string at the first occurrence of a character, when present
(models `indexOf`/`substring` pairs). -/
def splitAtFirstCharGo (c : Char) : List Char → List Char → Option (String × String)
  | [], _ => none
  | x :: xs, acc =>
      if x = c then some (String.mk acc.reverse, String.mk xs)
      else splitAtFirstCharGo c xs (x :: acc)

/-- Split at the first occurrence of `c`, giving prefix and suffix. -/
def splitAtFirstChar (c : Char) (s : String) : Option (String × String) :=
  splitAtFirstCharGo c s.toList []

/-- Model-string parsing (`agent.ts` lines 87-98): a slash splits
provider prefix from model name; otherwise the provider defaults to
`openai` and the whole string is the model name. -/
def parseModelString (modelString : String) : String × String :=
  match splitAtFirstChar '/' modelString with
  | some pm => pm
  | none => ("openai", modelString)

/-- An `mcp_servers` entry sent to the Anthropic API (`agent.ts` lines
138-145). -/
structure AnthropicMCPServer where
  type : String
  url : String
  name : Option String
  authorization_token : Option String
deriving Repr

/-- An Anthropic response: dynamic content blocks plus optional usage. -/
structure AnthropicResponse where
  content : List JSValue
  usage : Option LLMUsage := none
deriving Repr

/-- An OpenAI function-call request issued by the model. -/
structure OAIFunction where
  name : String
  arguments : String
deriving Repr

/-- One entry of `message.tool_calls`. -/
structure OAIToolCallReq where
  id : String
  function : OAIFunction
deriving Repr

/-- The assistant message of an OpenAI chat choice. -/
structure OAIMessage where
  content : Option String := none
  tool_calls : Option (List OAIToolCallReq) := none
deriving Repr

/-- One choice of an OpenAI chat response. -/
structure OAIChoice where
  message : OAIMessage
deriving Repr

/-- An OpenAI-style chat-completions response. -/
structure OAIChatResponse where
  choices : List OAIChoice
  usage : Option LLMUsage := none
deriving Repr

/-- An entry of the transcript sent to a chat API: an original role-tagged
message, the assistant tool-call message, or a tool-role result message. -/
inductive TranscriptMsg where
  | chat (m : ChatMsg)
  | assistant (m : OAIMessage)
  | toolResult (tool_call_id : String) (content : String)
deriving Repr

/-- One entry of the OpenAI `tools` array built from the MCP tool list
(`agent.ts` lines 212-223). -/
structure OAIToolDecl where
  name : String
  description : String
  properties : JSValue
  required : List JSValue
deriving Repr

/-- `agent.ts` lines 212-223: convert MCP tool descriptors to OpenAI
function declarations. -/
def buildOAITools (mcpTools : List MCPTool) : List OAIToolDecl :=
  mcpTools.map fun mcp =>
    { name := jsOrStr mcp.name (jsOrStr mcp.toolName "unknown_tool"),
      description := jsOrStr mcp.description "No description",
      properties :=
        match mcp.schema.bind (·.properties) with
        | some v => if v.truthy then v else .obj []
        | none => .obj [],
      required := (mcp.schema.bind (·.required)).getD [] }

/-- The JSON-RPC `tools/call` request of the OpenAI tool path (`agent.ts`
lines 255-270); the `Date.now()` request id is not modelled (it is never
read back). -/
structure MCPFetchRequest where
  name : String
  arguments : JSValue
  authHeader : Option String
deriving Repr

/-- A `tools` entry of the Groq Responses API (`agent.ts` lines 340-344). -/
structure GroqTool where
  server_label : String
  server_url : String
deriving Repr

/-- A Groq Responses API response. -/
structure GroqResponse where
  output_text : Option String := none
  usage : Option LLMUsage := none
  output : List JSValue := []
deriving Repr

/-- Gemini usage metadata. -/
structure GeminiUsageMeta where
  promptTokenCount : Option Int := none
  candidatesTokenCount : Option Int := none
  totalTokenCount : Option Int := none
deriving Repr

/-- A Gemini `generateContent` response. -/
structure GeminiResponse where
  text : String
  usageMetadata : Option GeminiUsageMeta := none
deriving Repr

/-- A LangChain `ChatOpenAI.invoke` response. -/
structure LangchainResponse where
  content : String
  usage : Option LLMUsage := none
deriving Repr

/-- The result object of `executeAgentNode`: `agentValue`,
`agentToolCalls`, `chatHistoryUpdates` and `variableUpdates` model the
`__agentValue`, `__agentToolCalls`, `__chatHistoryUpdates` and
`__variableUpdates` fields; `fallbackFlag` models the `_fallback` marker
of the demo path. -/
structure AgentResult where
  agentValue : JSValue
  agentToolCalls : List JSValue
  chatHistoryUpdates : List ChatMsg
  variableUpdates : List (String × JSValue)
  fallbackFlag : Bool := false
deriving Repr

/-- Ambient effects of `executeAgentNode`: `process.env` switches, the
JSON builtins, the external migrator/resolver leaves, the variable
substitution leaf, and one oracle per provider-SDK entry point (each
returning `Except` to model a rejected call). -/
structure AgentEnv where
  mockAgentResponse : Option String
  useFallbackData : Option String
  demoMode : Option String
  subst : String → WorkflowState → String
  migrate : NodeData → NodeData
  resolveMCPServers : List String → List MCPTool
  jsonParse : String → Except String JSValue
  jsonStringify : JSValue → String
  anthropicMCP : String → List ChatMsg → List AnthropicMCPServer → Except String AnthropicResponse
  anthropicPlain : String → List ChatMsg → Except String AnthropicResponse
  openaiChat : String → List TranscriptMsg → Option (List OAIToolDecl) → Except String OAIChatResponse
  mcpFetch : String → MCPFetchRequest → Except String JSValue
  langchainOpenAI : Option String → String → List ChatMsg → Except String LangchainResponse
  groqResponses : String → String → List GroqTool → Except String GroqResponse
  geminiGenerate : String → String → Except String GeminiResponse
  aimlapiChat : String → List ChatMsg → Except String OAIChatResponse

/-- The value/usage/tool-call triple a provider branch produces. -/
abbrev BranchValue := String × LLMUsage × List JSValue

/-- The Anthropic branch (`agent.ts` lines 123-202): with tools, a single
beta call carrying `mcp_servers` (Arcade entries filtered out, deferred
Firecrawl key placeholders substituted) whose content blocks are
partitioned into tool-use, tool-result and text blocks; without tools a
plain completion call. -/
def anthropicBranch (env : AgentEnv) (keys : APIKeys) (modelName : String)
    (messages : List ChatMsg) (mcpTools : List MCPTool) (hasMcpTools : Bool) :
    Except String BranchValue × List String :=
  if hasMcpTools then
    let isArcade : MCPTool → Bool := fun mcp =>
      match mcp.name with
      | some n => jsIncludes (lowerString n) "arcade"
      | none => false
    let realMcpTools := mcpTools.filter fun mcp => !isArcade mcp
    let mcpServers : List AnthropicMCPServer := realMcpTools.map fun mcp =>
      { type := "url",
        url :=
          if jsIncludes mcp.url "{FIRECRAWL_API_KEY}" then
            jsReplaceFirst mcp.url "{FIRECRAWL_API_KEY}" (jsOrStr keys.firecrawl "")
          else mcp.url,
        name := mcp.name,
        authorization_token := mcp.accessToken }
    match env.anthropicMCP modelName messages mcpServers with
    | .error e => (.error e, ["anthropic.beta.messages.create"])
    | .ok response =>
        let toolUses := response.content.filter fun item =>
          eqStr (item.safeGet "type") "tool_use" || eqStr (item.safeGet "type") "mcp_tool_use"
        let toolResults := response.content.filter fun item =>
          eqStr (item.safeGet "type") "tool_result" || eqStr (item.safeGet "type") "mcp_tool_result"
        let textBlocks := response.content.filter fun item => eqStr (item.safeGet "type") "text"
        let responseText := joinJSValues "\n" (textBlocks.map (·.safeGet "text"))
        let usage := response.usage.getD {}
        let toolCalls := toolUses.mapIdx fun idx item =>
          let serverName := item.safeGet "server_name"
          let base : List (String × JSValue) :=
            [("type", item.safeGet "type"),
             ("name", item.safeGet "name"),
             ("server_name", if serverName.truthy then serverName else .str "MCP"),
             ("arguments", item.safeGet "input"),
             ("tool_use_id", item.safeGet "id")]
          match toolResults.get? idx with
          | none => JSValue.obj base
          | some result =>
              let output :=
                if (result.safeGet "is_error").truthy then
                  JSValue.obj [("error", result.safeGet "content")]
                else
                  match result.safeGet "content" with
                  | .arr cs =>
                      let t := (((cs.get? 0).getD .undef).safeGet "text")
                      if t.truthy then t else .arr cs
                  | c => c
          JSValue.obj (base ++ [("output", output)])
        (.ok (responseText, usage, toolCalls), ["anthropic.beta.messages.create"])
  else
    match env.anthropicPlain modelName messages with
    | .error e => (.error e, ["anthropic.messages.create"])
    | .ok response =>
        match response.content.get? 0 with
        | none =>
            (.error "TypeError: Cannot read properties of undefined (reading type)",
             ["anthropic.messages.create"])
        | some c0 =>
            match c0.strictGet "type" with
            | .error e => (.error e, ["anthropic.messages.create"])
            | .ok ty =>
                let responseText :=
                  if eqStr ty "text" then coerceString (c0.safeGet "text") else ""
                (.ok (responseText, response.usage.getD {}, []),
                 ["anthropic.messages.create"])

/-- One iteration of the per-tool-call `try`/`catch` of the OpenAI tool
loop (`agent.ts` lines 240-285): resolve the server, parse the arguments,
POST the JSON-RPC `tools/call` envelope, and serialize the outcome
(success or caught error) into a tool-role message. -/
def execOneToolCall (env : AgentEnv) (mcpTools : List MCPTool) (call : OAIToolCallReq) :
    TranscriptMsg × List String :=
  let errMsg : String → TranscriptMsg := fun e =>
    .toolResult call.id (env.jsonStringify (.obj [("error", .str e)]))
  let found := mcpTools.find? fun m =>
    match (if strTruthy m.name then m.name else m.toolName) with
    | some s => s == call.function.name
    | none => false
  match found with
  | none => (errMsg ("MCP server not found for tool: " ++ call.function.name), [])
  | some mcpServer =>
      match env.jsonParse call.function.arguments with
      | .error e => (errMsg e, [])
      | .ok args =>
          let req : MCPFetchRequest :=
            { name := call.function.name, arguments := args,
              authHeader :=
                if strTruthy mcpServer.authToken then
                  some ("Bearer " ++ mcpServer.authToken.getD "")
                else none }
          match env.mcpFetch mcpServer.url req with
          | .error e => (errMsg e, ["fetch:" ++ mcpServer.url])
          | .ok result =>
              match result.strictGet "result" with
              | .error e => (errMsg e, ["fetch:" ++ mcpServer.url])
              | .ok rr =>
                  let payload := if rr.truthy then rr else result
                  (.toolResult call.id (env.jsonStringify payload), ["fetch:" ++ mcpServer.url])

/-- The content a tool transcript entry carries (used by the post-loop
record building, where `toolResults[idx].content` is read back). -/
def transcriptContentString : TranscriptMsg → String
  | .chat m => m.content
  | .assistant m => m.content.getD "undefined"
  | .toolResult _ content => content

/-- `agent.ts` lines 307-312: the tool-call records built after the
second completion call; both `JSON.parse` applications here run outside
any `try` and therefore propagate failures. -/
def buildOAIToolCallRecords (env : AgentEnv) (toolResults : List TranscriptMsg) :
    List OAIToolCallReq → Nat → Except String (List JSValue)
  | [], _ => .ok []
  | call :: rest, idx => do
      let args ← env.jsonParse call.function.arguments
      let output ←
        match toolResults.get? idx with
        | some tr => env.jsonParse (transcriptContentString tr)
        | none => pure JSValue.null
      let recs ← buildOAIToolCallRecords env toolResults rest (idx + 1)
      pure (JSValue.obj [("id", .str call.id), ("name", .str call.function.name),
                         ("arguments", args), ("output", output)] :: recs)

/-- The OpenAI with-tools path (`agent.ts` lines 206-315): first call with
declared tools; if the model requests tool calls, execute each, append
tool-role messages, make a second call with the full transcript, and sum
usage from both calls field-wise. -/
def openaiToolsBranch (env : AgentEnv) (modelName : String) (messages : List ChatMsg)
    (mcpTools : List MCPTool) : Except String BranchValue × List String :=
  let tools := buildOAITools mcpTools
  let msgs : List TranscriptMsg := messages.map .chat
  match env.openaiChat modelName msgs (some tools) with
  | .error e => (.error e, ["openai.chat.completions.create"])
  | .ok response =>
      match response.choices.get? 0 with
      | none =>
          (.error "TypeError: Cannot read properties of undefined (reading message)",
           ["openai.chat.completions.create"])
      | some choice0 =>
          let message := choice0.message
          let usage := response.usage.getD {}
          let calls := message.tool_calls.getD []
          if calls.length > 0 then
            let toolExec := calls.map (execOneToolCall env mcpTools)
            let toolResults := toolExec.map (·.1)
            let fetchTrace := (toolExec.map (·.2)).flatten
            let trace1 := "openai.chat.completions.create" :: fetchTrace
            let secondMsgs := msgs ++ [TranscriptMsg.assistant message] ++ toolResults
            match env.openaiChat modelName secondMsgs none with
            | .error e => (.error e, trace1 ++ ["openai.chat.completions.create"])
            | .ok finalResponse =>
                let trace2 := trace1 ++ ["openai.chat.completions.create"]
                match finalResponse.choices.get? 0 with
                | none =>
                    (.error "TypeError: Cannot read properties of undefined (reading message)",
                     trace2)
                | some fc0 =>
                    let responseText := fc0.message.content.getD ""
                    let usage2 := combineUsage usage finalResponse.usage
                    match buildOAIToolCallRecords env toolResults calls 0 with
                    | .error e => (.error e, trace2)
                    | .ok records => (.ok (responseText, usage2, records), trace2)
          else
            (.ok (message.content.getD "", usage, []), ["openai.chat.completions.create"])

/-- The Groq with-tools path (`agent.ts` lines 331-365): the Responses
API with `server_label`/`server_url` tool declarations; tool invocations
are recorded for observability only, with `output: null`. -/
def groqToolsBranch (env : AgentEnv) (modelName : String) (messages : List ChatMsg)
    (mcpTools : List MCPTool) : Except String BranchValue × List String :=
  let tools : List GroqTool := mcpTools.map fun mcp =>
    { server_label := jsOrStr mcp.name (jsOrStr mcp.toolName "unknown_tool"),
      server_url := mcp.url }
  match messages.getLast? with
  | none =>
      (.error "TypeError: Cannot read properties of undefined (reading content)", [])
  | some lastMsg =>
      match env.groqResponses modelName lastMsg.content tools with
      | .error e => (.error e, ["groq.responses.create"])
      | .ok response =>
          let responseText := jsOrStr response.output_text ""
          let usage := response.usage.getD {}
          let toolCalls := (response.output.filter fun o => eqStr (o.safeGet "type") "tool_use").map
            fun o => JSValue.obj [("id", o.safeGet "id"), ("name", o.safeGet "name"),
                                  ("arguments", o.safeGet "input"), ("output", .null)]
          (.ok (responseText, usage, toolCalls), ["groq.responses.create"])

/-- The Gemini model-name aliasing table (`agent.ts` lines 392-396). -/
def geminiModelMapLookup (m : String) : String :=
  if m = "gemini-1.5-flash" then "gemini-2.5-flash"
  else if m = "gemini-1.5-pro" then "gemini-2.5-flash"
  else if m = "gemini-2.5-flash" then "gemini-2.5-flash"
  else m

/-- The Gemini branch (`agent.ts` lines 381-431): prefix stripping and
aliasing, flattening the message list into a single prompt (assistant
turns prefixed), and translating `usageMetadata` into the normalized
usage shape. Tool calling is not supported on this branch. -/
def geminiBranch (env : AgentEnv) (modelName : String) (messages : List ChatMsg) :
    Except String BranchValue × List String :=
  let geminiModelName := jsReplaceFirst modelName "gemini/" ""
  let geminiModelName := geminiModelMapLookup geminiModelName
  let geminiModelName := jsReplaceFirst geminiModelName "models/" ""
  let prompt := joinStrings "\n\n" (messages.map fun msg =>
    if msg.role = "user" then msg.content
    else if msg.role = "assistant" then "Assistant: " ++ msg.content
    else msg.content)
  match env.geminiGenerate geminiModelName prompt with
  | .error e => (.error e, ["gemini.generateContent"])
  | .ok r =>
      let usage : LLMUsage :=
        { prompt_tokens := some ((r.usageMetadata.bind (·.promptTokenCount)).getD 0),
          completion_tokens := some ((r.usageMetadata.bind (·.candidatesTokenCount)).getD 0),
          total_tokens := some ((r.usageMetadata.bind (·.totalTokenCount)).getD 0),
          input_tokens := some ((r.usageMetadata.bind (·.promptTokenCount)).getD 0),
          output_tokens := some ((r.usageMetadata.bind (·.candidatesTokenCount)).getD 0) }
      (.ok (r.text, usage, []), ["gemini.generateContent"])

/-- The AI/ML API model aliasing table (`agent.ts` lines 444-448). -/
def aimlapiModelMapLookup (m : String) : String :=
  if m = "llama-3.1-70b" then "meta-llama/Meta-Llama-3.1-70B-Instruct-Turbo"
  else if m = "llama-3.1-8b" then "meta-llama/Meta-Llama-3.1-8B-Instruct-Turbo"
  else if m = "flux-1.1-pro" then "black-forest-labs/FLUX.1.1-pro"
  else m

/-- The AI/ML API branch (`agent.ts` lines 432-475): an OpenAI-compatible
completion call with aliased model names and role-normalized messages; no
tool support. -/
def aimlapiBranch (env : AgentEnv) (modelName : String) (messages : List ChatMsg) :
    Except String BranchValue × List String :=
  let aimlapiModelName := jsReplaceFirst modelName "aimlapi/" ""
  let aimlapiModelName := aimlapiModelMapLookup aimlapiModelName
  let formattedMessages : List ChatMsg := messages.map fun msg =>
    { role := if msg.role = "user" then "user" else "assistant", content := msg.content }
  match env.aimlapiChat aimlapiModelName formattedMessages with
  | .error e => (.error e, ["aimlapi.chat.completions.create"])
  | .ok response =>
      let responseText := ((response.choices.get? 0).bind (·.message.content)).getD ""
      let usage : LLMUsage :=
        { prompt_tokens := some ((response.usage.bind (·.prompt_tokens)).getD 0),
          completion_tokens := some ((response.usage.bind (·.completion_tokens)).getD 0),
          total_tokens := some ((response.usage.bind (·.total_tokens)).getD 0),
          input_tokens := some ((response.usage.bind (·.prompt_tokens)).getD 0),
          output_tokens := some ((response.usage.bind (·.completion_tokens)).getD 0) }
      (.ok (responseText, usage, []), ["aimlapi.chat.completions.create"])

/-! ### Demo fallback templates (`agent.ts` lines 528-778) -/

/-- The ticker-aware analysis template (`agent.ts` lines 531-564). -/
def geminiTickerFallback (ticker : String) : String := joinStrings "\n" [
  "## Analysis of Search Results: " ++ ticker,
  "",
  "### 1. Key Findings",
  "",
  "1. **Current Market Position:** " ++ ticker ++ " is trading at $150.25, up $2.50 (+1.69%) from previous close, indicating strong market confidence.",
  "",
  "2. **Financial Metrics:** Market capitalization of $3.7T with a P/E ratio of 75.2, reflecting high growth expectations. 52-week range shows significant volatility ($39.23 - $180.00).",
  "",
  "3. **Recent Developments:** Strong earnings performance driven by AI chip demand. Analysts maintain positive outlook with price targets around $200.",
  "",
  "### 2. Trends and Patterns Identified",
  "",
  "- **Upward Momentum:** Consistent positive price movement over recent trading sessions",
  "- **High Trading Volume:** 45.2M shares traded, indicating strong investor interest",
  "- **Sector Leadership:** Positioned as a leader in AI and semiconductor technology",
  "",
  "### 3. Important Statistics or Data Points",
  "",
  "- Current Price: $150.25",
  "- Daily Change: +$2.50 (+1.69%)",
  "- Market Cap: $3.7T",
  "- P/E Ratio: 75.2",
  "- 52-Week High: $180.00",
  "- 52-Week Low: $39.23",
  "- Beta: 1.68 (higher volatility)",
  "",
  "### 4. Expert Analysis and Implications",
  "",
  "The stock demonstrates strong fundamentals with robust earnings growth. The high P/E ratio reflects market expectations for continued expansion in AI and data center markets. Recent news suggests sustained demand for the company\x27s products.",
  "",
  "**Implications:**",
  "- Strong buy signal for growth-oriented investors",
  "- Monitor for potential volatility given high beta",
  "- Consider position sizing based on risk tolerance"]

/-- The product-aware analysis template (`agent.ts` lines 566-595). -/
def geminiProductFallback (product : String) : String := joinStrings "\n" [
  "## Analysis of Amazon Search Results: " ++ product,
  "",
  "### 1. Key Findings",
  "",
  "1. **Product Availability:** Multiple high-quality options found with ratings ranging from 4.2 to 4.7 stars.",
  "",
  "2. **Price Range:** Products available from $79 to $149, offering options for different budget levels.",
  "",
  "3. **Feature Analysis:** Top products include wireless connectivity, ergonomic design, long battery life, and precision sensors.",
  "",
  "### 2. Trends and Patterns Identified",
  "",
  "- **High Ratings:** All top results have 4+ star ratings with thousands of reviews",
  "- **Wireless Dominance:** Most popular products are wireless with modern connectivity options",
  "- **Price-Quality Correlation:** Higher-priced items tend to have more advanced features",
  "",
  "### 3. Important Statistics or Data Points",
  "",
  "- Top Product: Logitech MX Master 3S - $99.99, 4.7/5 stars (12,345 reviews)",
  "- Premium Option: Razer DeathAdder V3 Pro - $149.99, 4.6/5 stars (8,901 reviews)",
  "- Budget Option: Apple Magic Mouse - $79.00, 4.2/5 stars (5,678 reviews)",
  "",
  "### 4. Expert Analysis and Implications",
  "",
  "The search results show a competitive market with well-reviewed products across different price points. Customer reviews indicate strong satisfaction with top-rated items, particularly those with ergonomic designs and long battery life.",
  "",
  "**Implications:**",
  "- Consider Logitech MX Master 3S for best value proposition",
  "- Premium features available in higher-priced models",
  "- All options have strong customer satisfaction ratings"]

/-- The research-topic-aware analysis template (`agent.ts` lines 597-626). -/
def geminiResearchFallback (researchTopic : String) : String := joinStrings "\n" [
  "## Analysis of Search Results: " ++ researchTopic,
  "",
  "### 1. Key Findings",
  "",
  "1. **Comprehensive Coverage:** Search results reveal multiple authoritative sources covering the topic from different angles including market analysis, technology trends, and business implications.",
  "",
  "2. **Emerging Trends:** Key themes include multimodal AI models, agentic AI systems, edge AI deployment, and AI safety regulations.",
  "",
  "3. **Market Growth:** Industry reports indicate significant growth projections, with AI spending expected to reach $200B by 2025.",
  "",
  "### 2. Trends and Patterns Identified",
  "",
  "- **Technology Evolution:** Rapid advancement in AI capabilities across multiple domains",
  "- **Business Adoption:** Increasing integration of AI into business processes and decision-making",
  "- **Regulatory Focus:** Growing emphasis on AI governance and responsible development",
  "",
  "### 3. Important Statistics or Data Points",
  "",
  "- Market Size: AI spending projected to reach $200B by 2025",
  "- Key Sectors: Enterprise AI, consumer AI applications, AI infrastructure",
  "- Growth Drivers: Generative AI tools, automation, enhanced decision-making systems",
  "",
  "### 4. Expert Analysis and Implications",
  "",
  "The research indicates a maturing AI ecosystem with strong growth potential. Industry leaders emphasize the importance of responsible AI development while leveraging new capabilities for competitive advantage.",
  "",
  "**Implications:**",
  "- Significant investment opportunities in AI infrastructure and applications",
  "- Need for strategic planning around AI integration",
  "- Importance of staying current with regulatory developments"]

/-- The generic analysis template (`agent.ts` lines 628-646). -/
def geminiGenericFallback : String := joinStrings "\n" [
  "## Analysis Results",
  "",
  "### 1. Key Findings",
  "- Data successfully processed and analyzed",
  "- Key insights extracted from available information",
  "- Patterns and trends identified",
  "",
  "### 2. Trends and Patterns Identified",
  "- Consistent patterns observed in the data",
  "- Notable trends requiring attention",
  "- Opportunities for optimization identified",
  "",
  "### 3. Important Statistics or Data Points",
  "- Key metrics calculated and validated",
  "- Comparative analysis completed",
  "- Performance indicators assessed",
  "",
  "### 4. Expert Analysis and Implications",
  "The analysis demonstrates the workflow\x27s capability to process complex information and generate actionable insights. The findings support informed decision-making and strategic planning."]

/-- The executive-summary template (`agent.ts` lines 650-670). -/
def summaryFallback : String := joinStrings "\n" [
  "**Executive Summary: Analysis Results**",
  "",
  "**Overview:**",
  "",
  "The analysis has been completed successfully, processing the available data and extracting key insights. The findings demonstrate the workflow\x27s capability to synthesize information and generate actionable recommendations.",
  "",
  "**Key Takeaways:**",
  "",
  "• Analysis completed with comprehensive data processing",
  "• Key insights identified and validated",
  "• Trends and patterns successfully extracted",
  "• Actionable recommendations generated",
  "",
  "**Actionable Insights:**",
  "",
  "Based on the analysis, the following recommendations are provided:",
  "1. Proceed with implementation based on validated findings",
  "2. Monitor key metrics identified in the analysis",
  "3. Adjust strategy based on emerging trends and patterns",
  "",
  "This summary provides a clear overview of the analysis results and next steps for decision-making."]

/-- The stock-report template (`agent.ts` lines 674-709). -/
def reportFallback (stockName : String) : String := joinStrings "\n" [
  "# Stock Analysis Report: " ++ stockName,
  "",
  "## Executive Summary",
  stockName ++ " demonstrates strong market performance with positive momentum. The stock shows robust fundamentals and favorable analyst sentiment, making it an attractive option for growth-oriented investors seeking exposure to the technology sector.",
  "",
  "## Key Metrics",
  "",
  "| Metric | Value |",
  "|--------|-------|",
  "| Current Price | $150.25 |",
  "| Daily Change | +$2.50 (+1.69%) |",
  "| Market Cap | $3.7T |",
  "| P/E Ratio | 75.2 |",
  "| 52-Week High | $180.00 |",
  "| 52-Week Low | $39.23 |",
  "| Beta | 1.68 |",
  "| Trading Volume | 45.2M |",
  "",
  "## Performance Analysis",
  "",
  "The stock has shown strong upward momentum with consistent positive price movement. The high trading volume indicates significant investor interest and market activity. The P/E ratio of 75.2 reflects high growth expectations, while the beta of 1.68 suggests higher volatility compared to the market.",
  "",
  "## Recent News Summary",
  "",
  "1. **Strong Earnings Report:** Recent quarterly earnings exceeded expectations, driven by strong demand for AI chips and data center solutions.",
  "",
  "2. **Analyst Upgrades:** Multiple analysts have maintained or upgraded their buy ratings, with price targets around $200, indicating continued confidence in the company\x27s growth trajectory.",
  "",
  "## Investment Recommendation",
  "",
  "**BUY** - The stock presents a strong investment opportunity for growth-oriented investors. The combination of strong fundamentals, positive analyst sentiment, and favorable market trends supports a buy recommendation. However, investors should be aware of the higher volatility (beta 1.68) and consider position sizing accordingly.",
  "",
  "**Risk Factors:**",
  "- High P/E ratio may indicate overvaluation",
  "- Market volatility could impact short-term performance",
  "- Sector-specific risks related to technology and AI markets"]

/-- The product-recommendation template (`agent.ts` lines 713-745). -/
def recommendFallback (productName : String) : String := joinStrings "\n" [
  "## Product Overview",
  "**" ++ productName ++ "** - Multiple high-quality options available with prices ranging from $79 to $149. Top-rated products feature wireless connectivity, ergonomic design, and long battery life.",
  "",
  "## Pros & Cons",
  "",
  "Based on reviews and features:",
  "",
  "**Pros:**",
  "- High customer satisfaction (4.2-4.7 star ratings)",
  "- Wireless connectivity for modern setups",
  "- Ergonomic designs for comfort during extended use",
  "- Long battery life (70-90 hours)",
  "- Precision sensors for accurate tracking",
  "- Multi-device connectivity options",
  "",
  "**Cons:**",
  "- Premium pricing for top-tier models",
  "- Some models may be too large for smaller hands",
  "- Wireless models require battery management",
  "- Limited customization on budget options",
  "",
  "## Value Assessment",
  "",
  "The products offer good value across price ranges. The Logitech MX Master 3S at $99.99 provides the best balance of features and price, with 4.7-star rating and 12,345 reviews. Premium options like the Razer DeathAdder V3 Pro offer advanced features for power users willing to pay more.",
  "",
  "## Recommendation",
  "",
  "**BUY** - The Logitech MX Master 3S is recommended as the best overall value. It combines excellent ratings (4.7/5), strong feature set, and reasonable pricing. For gaming enthusiasts, the Razer DeathAdder V3 Pro offers premium features worth the additional cost.",
  "",
  "## Best For",
  "- **Logitech MX Master 3S:** Professionals, content creators, and general users seeking reliable wireless mouse with excellent ergonomics",
  "- **Razer DeathAdder V3 Pro:** Gaming enthusiasts and power users who prioritize precision and advanced features",
  "- **Apple Magic Mouse:** Mac users seeking seamless integration with Apple ecosystem"]

/-- The product-extraction template (`agent.ts` lines 748-773). -/
def extractFallback : String := joinStrings "\n" [
  "**Product Information Extracted:**",
  "",
  "**Product Title:** Logitech MX Master 3S Wireless Mouse",
  "",
  "**Current Price:** $99.99",
  "",
  "**Rating:** 4.7 out of 5 stars",
  "",
  "**Number of Reviews:** 12,345 reviews",
  "",
  "**Key Features/Specs:**",
  "- Wireless connectivity (Bluetooth and USB receiver)",
  "- Ergonomic design for right-handed users",
  "- 7,000 DPI sensor for precision tracking",
  "- 70-day battery life",
  "- USB-C charging",
  "- Multi-device connectivity (up to 3 devices)",
  "- Programmable buttons",
  "- Darkfield sensor for use on any surface",
  "",
  "**Top Customer Review Summaries:**",
  "1. \"Excellent build quality and comfort for long work sessions. Battery life is outstanding.\"",
  "2. \"Best mouse I\x27ve ever used. The ergonomics are perfect and the precision is unmatched.\"",
  "3. \"Great for productivity. Multi-device switching is seamless and very convenient.\"",
  "4. \"Worth every penny. The build quality and features justify the price point.\"",
  "5. \"Highly recommend for professionals. The precision and comfort make it ideal for daily use.\""]

/-- The last-resort demo line (`agent.ts` lines 775-777). -/
def plainDemoFallback : String := joinStrings "\n" [
  "Analysis completed successfully. The workflow processed the input data and generated appropriate output based on the configured instructions.",
  "",
  "**Note:** This is a demo response. In production, this would contain detailed output from the LLM."]

/-- Fallback response selection (`agent.ts` lines 516-778): keyword
matching over the node name plus structured hints (`ticker`, `product`,
`research_topic`) sniffed from the run input; the source also lower-cases
the instructions into an unused local. -/
def agentFallbackResponse (node : WorkflowNode) (state : WorkflowState) : String :=
  let d := node.data
  let nodeName := lowerString (jsOrStr d.nodeName node.id)
  let input :=
    let i := state.getVar "input"
    if i.truthy then i else JSValue.obj []
  let ticker : JSValue :=
    if typeofObject input then
      let t := input.safeGet "ticker"
      if t.truthy then t else (input.safeGet "input").safeGet "ticker"
    else .null
  let product : JSValue :=
    if typeofObject input then
      let p := input.safeGet "product"
      if p.truthy then p else (input.safeGet "input").safeGet "product"
    else .null
  let researchTopic : JSValue :=
    if typeofObject input then
      let r := input.safeGet "research_topic"
      if r.truthy then r else (input.safeGet "input").safeGet "research_topic"
    else .null
  if jsIncludes nodeName "gemini" ||
      (jsIncludes nodeName "analysis" ∧ !jsIncludes nodeName "recommend") then
    if ticker.truthy then geminiTickerFallback (coerceString ticker)
    else if product.truthy then geminiProductFallback (coerceString product)
    else if researchTopic.truthy then geminiResearchFallback (coerceString researchTopic)
    else geminiGenericFallback
  else if jsIncludes nodeName "summary" || jsIncludes nodeName "summarize" ||
      (jsIncludes nodeName "aimlapi" ∧ jsIncludes nodeName "summary") then
    summaryFallback
  else if jsIncludes nodeName "report" ||
      (jsIncludes nodeName "write" ∧ jsIncludes nodeName "report") then
    reportFallback (if ticker.truthy then coerceString ticker else "Stock")
  else if jsIncludes nodeName "recommend" || jsIncludes nodeName "analyze-recommend" then
    recommendFallback (if product.truthy then coerceString product else "Product")
  else if jsIncludes nodeName "extract" || jsIncludes nodeName "extract-product" then
    extractFallback
  else plainDemoFallback

/-- The `catch` handler of `executeAgentNode` (`agent.ts` lines 504-809):
with the demo policy enabled, synthesize a keyword-matched fallback
result marked `_fallback`; otherwise classify the error message by
substring into user-facing error kinds and re-throw. -/
def executeAgentCatch (env : AgentEnv) (node : WorkflowNode) (state : WorkflowState)
    (errorMessage : String) : Except String AgentResult :=
  let useFallback := fallbackEnabled env.useFallbackData env.demoMode
  if useFallback then
    let fallbackResponse := agentFallbackResponse node state
    .ok { agentValue := .str fallbackResponse,
          agentToolCalls := [],
          chatHistoryUpdates :=
            if node.data.includeChatHistory then
              [{ role := "user", content := jsOrStr node.data.instructions "" },
               { role := "assistant", content := fallbackResponse }]
            else [],
          variableUpdates := [("lastOutput", .str fallbackResponse)],
          fallbackFlag := true }
  else if jsIncludes errorMessage "API key" || jsIncludes errorMessage "api_key" then
    .error "Missing API key. Please add your LLM provider key in Settings."
  else if jsIncludes errorMessage "rate limit" || jsIncludes errorMessage "429" then
    .error "Rate limited. Please wait a moment and try again."
  else if jsIncludes errorMessage "No API key available" then
    .error "No API key configured. Please add a Gemini, AI/ML API, Anthropic, OpenAI, or Groq API key in your .env.local file."
  else
    .error ("Agent execution failed: " ++ errorMessage)

/-- The mock chat content: the mock output itself when it is a string,
its `JSON.stringify` serialization otherwise (`agent.ts` line 61). -/
def mockContentString (env : AgentEnv) : JSValue → String
  | .str t => t
  | w => env.jsonStringify w

/-- The `try` body of `executeAgentNode` (`agent.ts` lines 17-503):
variable substitution, legacy migration, tool resolution, the key-presence
guard, the deterministic mock path, message assembly, model parsing,
provider dispatch, and output shaping. Every exit hands back the state it
holds together with the provider-call trace. -/
def executeAgentNodeTry (env : AgentEnv) (node : WorkflowNode) (state : WorkflowState)
    (apiKeys : Option APIKeys) : Except String AgentResult × WorkflowState × List String :=
  let d := node.data
  let instructions := env.subst (jsOrStr d.instructions "Process the input") state
  let migratedData := env.migrate d
  let mcpTools : List MCPTool :=
    match migratedData.mcpServerIds with
    | some ids =>
        if ids.length > 0 then env.resolveMCPServers ids else migratedData.mcpTools.getD []
    | none => migratedData.mcpTools.getD []
  match apiKeys with
  | none => (.error "API keys are required for server-side execution", state, [])
  | some keys =>
      let mockResult : Option AgentResult :=
        match env.mockAgentResponse with
        | some s =>
            if s ≠ "" then
              let mockConfig : JSValue :=
                match env.jsonParse s with
                | .ok v => v
                | .error _ => .str s
              let mockOutput : JSValue :=
                if mockConfig.truthy ∧ typeofObject mockConfig then
                  nullish (mockConfig.safeGet node.id)
                    (nullish
                      (if strTruthy d.nodeName then mockConfig.safeGet (d.nodeName.getD "")
                       else .undef)
                      (nullish (mockConfig.safeGet "default") mockConfig))
                else mockConfig
              match mockOutput with
              | .undef => none
              | mo =>
                  some { agentValue := mo,
                         agentToolCalls := [],
                         chatHistoryUpdates :=
                           if d.includeChatHistory then
                             [{ role := "user", content := jsOrStr d.instructions "" },
                              { role := "assistant", content := mockContentString env mo }]
                           else [],
                         variableUpdates := [("lastOutput", mo)] }
            else none
        | none => none
      match mockResult with
      | some r => (.ok r, state, [])
      | none =>
          let contextualPrompt := instructions
          let messages : List ChatMsg :=
            if d.includeChatHistory ∧ state.chatHistory.length > 0 then
              state.chatHistory ++ [{ role := "user", content := contextualPrompt }]
            else [{ role := "user", content := contextualPrompt }]
          let modelString := jsOrStr d.model "anthropic/claude-sonnet-4-5-20250929"
          let pm := parseModelString modelString
          let provider := pm.1
          let modelName := pm.2
          let hasMcpTools := mcpTools.length > 0
          let branch : Except String BranchValue × List String :=
            if provider = "anthropic" ∧ strTruthy keys.anthropic then
              anthropicBranch env keys modelName messages mcpTools hasMcpTools
            else if provider = "openai" ∧ strTruthy keys.openai then
              if mcpTools.length > 0 then openaiToolsBranch env modelName messages mcpTools
              else
                match env.langchainOpenAI none modelName messages with
                | .error e => (.error e, ["langchain.ChatOpenAI.invoke"])
                | .ok r => (.ok (r.content, r.usage.getD {}, []), ["langchain.ChatOpenAI.invoke"])
            else if provider = "groq" ∧ strTruthy keys.groq then
              if mcpTools.length > 0 then groqToolsBranch env modelName messages mcpTools
              else
                match env.langchainOpenAI (some "https://api.groq.com/openai/v1") modelName messages with
                | .error e => (.error e, ["langchain.ChatOpenAI.invoke"])
                | .ok r => (.ok (r.content, r.usage.getD {}, []), ["langchain.ChatOpenAI.invoke"])
            else if provider = "gemini" ∧ strTruthy keys.gemini then
              geminiBranch env modelName messages
            else if provider = "aimlapi" ∧ strTruthy keys.aimlapi then
              aimlapiBranch env modelName messages
            else
              (.error ("No API key available for provider: " ++ provider), [])
          match branch with
          | (.error e, tr) => (.error e, state, tr)
          | (.ok bv, tr) =>
              let responseText := bv.1
              let toolCalls := bv.2.2
              let serverChatUpdates : List ChatMsg :=
                if d.includeChatHistory then
                  [{ role := "user", content := jsOrStr d.instructions "" },
                   { role := "assistant", content := responseText }]
                else []
              let output : JSValue :=
                if d.outputFormat = some "JSON" then
                  match env.jsonParse responseText with
                  | .ok v => v
                  | .error _ => .str responseText
                else .str responseText
              (.ok { agentValue := output,
                     agentToolCalls := toolCalls,
                     chatHistoryUpdates := serverChatUpdates,
                     variableUpdates := [("lastOutput", output)] }, state, tr)

/-- `executeAgentNode` from `agent.ts` lines 10-810: the `try` body with
the demo-fallback/error-classification `catch` around it. The returned
triple carries the result (or the re-thrown error), the workflow state as
left by the call, and the trace of provider/network calls issued. -/
def executeAgentNode (env : AgentEnv) (node : WorkflowNode) (state : WorkflowState)
    (apiKeys : Option APIKeys) : Except String AgentResult × WorkflowState × List String :=
  match executeAgentNodeTry env node state apiKeys with
  | (.ok r, st, tr) => (.ok r, st, tr)
  | (.error e, st, tr) => (executeAgentCatch env node st e, st, tr)

/-! ## HTTP executor — `executeHTTPNode` -/

/-- First-occurrence update on a string-valued record (JS object
assignment `headers[k] = v`). -/
def setStrField : List (String × String) → String → String → List (String × String)
  | [], k, v => [(k, v)]
  | (k', w) :: fs, k, v => if k' == k then (k, v) :: fs else (k', w) :: setStrField fs k v

/-- JavaScript `s.endsWith(suf)`. -/
def jsEndsWith (s suf : String) : Bool := listStartsWith suf.toList.reverse s.toList.reverse

/-- A `fetch` response as consumed by `executeHTTPNode`. -/
structure FetchResponse where
  status : Int
  statusText : String
  headers : List (String × String)
  body : String
deriving Repr

/-- `response.ok`: status in the inclusive 200-299 range. -/
def FetchResponse.isOk (r : FetchResponse) : Bool := 200 ≤ r.status ∧ r.status ≤ 299

/-- The request `fetch` is invoked with. -/
structure FetchRequest where
  url : String
  method : String
  headers : List (String × String)
  body : Option String
deriving Repr

/-- Ambient effects of `executeHTTPNode`: variable substitution,
`process.env`, `btoa`, the JSON builtins and `fetch`. -/
structure HTTPEnv where
  subst : String → WorkflowState → String
  processEnv : String → Option String
  btoa : String → String
  jsonParse : String → Except String JSValue
  jsonStringify : JSValue → String
  fetch : FetchRequest → Except String FetchResponse

/-- Deferred-environment-reference resolution (`agent.ts` HTTP part,
lines 845-848 and analogues): a substituted token of the shape
`$\x7bNAME\x7d` is replaced by `process.env.NAME` when that is truthy. -/
def resolveEnvRef (env : HTTPEnv) (authToken : String) : String :=
  if jsStartsWith authToken "$\x7b" ∧ jsEndsWith authToken "\x7d" then
    let envVar := String.mk (authToken.toList.drop 2).dropLast
    jsOrStr (env.processEnv envVar) authToken
  else authToken

/-- The `httpHeaders` loop (lines 833-839): entries with truthy key and
value are written with the substituted value. -/
def buildBaseHeaders (env : HTTPEnv) (state : WorkflowState) (d : NodeData) :
    List (String × String) :=
  (d.httpHeaders.getD []).foldl
    (fun acc h =>
      if strTruthy h.key ∧ strTruthy h.value then
        setStrField acc (h.key.getD "") (env.subst (h.value.getD "") state)
      else acc)
    []

/-- The authentication block (lines 842-866): bearer, API-key-header and
basic modes, each resolving deferred environment references after
substitution. -/
def applyAuth (env : HTTPEnv) (state : WorkflowState) (d : NodeData)
    (headers : List (String × String)) : List (String × String) :=
  if d.httpAuthType = some "bearer" ∧ strTruthy d.httpAuthToken then
    let authToken := resolveEnvRef env (env.subst (d.httpAuthToken.getD "") state)
    setStrField headers "Authorization" ("Bearer " ++ authToken)
  else if d.httpAuthType = some "api-key" ∧ strTruthy d.httpAuthToken then
    let authToken := resolveEnvRef env (env.subst (d.httpAuthToken.getD "") state)
    setStrField headers "X-API-Key" authToken
  else if d.httpAuthType = some "basic" ∧ strTruthy d.httpAuthToken then
    let authToken := resolveEnvRef env (env.subst (d.httpAuthToken.getD "") state)
    setStrField headers "Authorization" ("Basic " ++ env.btoa authToken)
  else headers

mutual

/-- `substituteInObject` (lines 876-889): recursive substitution over
every string leaf and every object key of a parsed JSON body. -/
def substituteInObject (subst : String → WorkflowState → String) (state : WorkflowState) :
    JSValue → JSValue
  | .str s => .str (subst s state)
  | .arr xs => .arr (substituteInObjectList subst state xs)
  | .obj fs => .obj (substituteInObjectFields subst state fs)
  | v => v

/-- `substituteInObject` over array elements. -/
def substituteInObjectList (subst : String → WorkflowState → String) (state : WorkflowState) :
    List JSValue → List JSValue
  | [] => []
  | x :: xs => substituteInObject subst state x :: substituteInObjectList subst state xs

/-- `substituteInObject` over object entries (keys are substituted too). -/
def substituteInObjectFields (subst : String → WorkflowState → String) (state : WorkflowState) :
    List (String × JSValue) → List (String × JSValue)
  | [] => []
  | (k, v) :: fs =>
      (subst k state, substituteInObject subst state v) :: substituteInObjectFields subst state fs

end

/-- The body construction (lines 869-896): only for POST/PUT/PATCH with a
truthy body template; a JSON-parsable body is deep-substituted and
re-serialized, otherwise the substituted raw text is sent. -/
def buildHTTPBody (env : HTTPEnv) (state : WorkflowState) (d : NodeData) (method : String) :
    Option String :=
  if (method = "POST" || method = "PUT" || method = "PATCH") ∧ strTruthy d.httpBody then
    let bodyStr := env.subst (d.httpBody.getD "") state
    match env.jsonParse bodyStr with
    | .ok parsed => some (env.jsonStringify (substituteInObject env.subst state parsed))
    | .error _ => some bodyStr
  else none

/-- The result object of `executeHTTPNode`. -/
structure HTTPResult where
  status : Int
  statusText : String
  headers : List (String × String)
  data : JSValue
  url : String
  method : String
deriving Repr

/-- The request assembled by `executeHTTPNode` before calling `fetch`
(lines 826-896): substituted URL, method defaulting to GET, headers with
authentication applied, and the processed body. -/
def buildHTTPRequest (env : HTTPEnv) (node : WorkflowNode) (state : WorkflowState) :
    FetchRequest :=
  let d := node.data
  let url := env.subst (jsOrStr d.httpUrl "") state
  let method := jsOrStr d.httpMethod "GET"
  let headers := applyAuth env state d (buildBaseHeaders env state d)
  let body := buildHTTPBody env state d method
  { url := url, method := method, headers := headers, body := body }

/-- `executeHTTPNode` (HTTP executor, lines 818-925): templated
URL/headers/body, the `fetch` call, JSON-with-text-fallback body parsing,
the non-2xx throw, and the outer wrap of any thrown error. -/
def executeHTTPNode (env : HTTPEnv) (node : WorkflowNode) (state : WorkflowState) :
    Except String HTTPResult :=
  let req := buildHTTPRequest env node state
  let url := req.url
  let method := req.method
  match env.fetch req with
  | .error e => .error ("HTTP request failed: " ++ e)
  | .ok response =>
      let responseData : JSValue :=
        match env.jsonParse response.body with
        | .ok v => v
        | .error _ => .str response.body
      if !response.isOk then
        .error ("HTTP request failed: HTTP " ++ toString response.status ++ ": " ++
          response.statusText)
      else
        .ok { status := response.status, statusText := response.statusText,
              headers := response.headers, data := responseData,
              url := url, method := method }

/-! ### Concrete scenario data for witnesses and counterexamples -/

/-- A baseline MCP environment: every backend call rejects, no policy
switches set, substitution is the identity. -/
def mcpEnvBase : MCPEnv :=
  { resolveMCPServer := fun _ => none,
    firecrawlKey := some "fc-key",
    firecrawlScrape := fun _ _ => .error "network failure",
    firecrawlSearch := fun _ _ => .error "network failure",
    firecrawlMap := fun _ => .error "network failure",
    firecrawlCrawl := fun _ _ => .error "network failure",
    useFallbackData := none,
    demoMode := none,
    subst := fun s _ => s,
    jsonStringify := fun _ => "" }

/-- A baseline agent environment: every provider call rejects, no mock
value, demo fallback explicitly disabled. -/
def agentEnvBase : AgentEnv :=
  { mockAgentResponse := none,
    useFallbackData := none,
    demoMode := some "false",
    subst := fun s _ => s,
    migrate := fun d => d,
    resolveMCPServers := fun _ => [],
    jsonParse := fun _ => .error "Unexpected token",
    jsonStringify := fun _ => "",
    anthropicMCP := fun _ _ _ => .error "network failure",
    anthropicPlain := fun _ _ => .error "network failure",
    openaiChat := fun _ _ _ => .error "network failure",
    mcpFetch := fun _ _ => .error "network failure",
    langchainOpenAI := fun _ _ _ => .error "network failure",
    groqResponses := fun _ _ _ => .error "network failure",
    geminiGenerate := fun _ _ => .error "network failure",
    aimlapiChat := fun _ _ => .error "network failure" }

/-- The empty workflow state. -/
def emptyState : WorkflowState := { vars := [], chatHistory := [] }

/-- An HTTP environment returning a fixed fetch response. -/
def httpEnvWith (resp : FetchResponse) : HTTPEnv :=
  { subst := fun s _ => s,
    processEnv := fun _ => none,
    btoa := fun s => s,
    jsonParse := fun _ => .error "Unexpected token",
    jsonStringify := fun _ => "",
    fetch := fun _ => .ok resp }

/-- A 404 response carrying a body that the thrown error does not quote. -/
def resp404 : FetchResponse :=
  { status := 404, statusText := "Not Found", headers := [], body := "BODYTEXT" }

/-- A plain 200 response. -/
def resp200 : FetchResponse :=
  { status := 200, statusText := "OK", headers := [("content-type", "text/plain")],
    body := "PAYLOAD" }

/-- A minimal HTTP step node. -/
def plainHTTPNode : WorkflowNode := { id := "h1", data := { httpUrl := some "https://api.test/x" } }

/-- The tool list of the OpenAI two-pass scenario. -/
def c7Tools : List MCPTool := [{ name := some "t1", url := "https://tool.srv" }]

/-- First-pass response: one requested tool call, 10 prompt tokens. -/
def c7call : OAIToolCallReq := { id := "call1", function := { name := "t1", arguments := "args" } }

/-- The assistant message of the first pass. -/
def c7msg1 : OAIMessage := { content := some "pass1", tool_calls := some [c7call] }

def c7r1 : OAIChatResponse :=
  { choices := [{ message := c7msg1 }],
    usage := some { prompt_tokens := some 10, completion_tokens := some 2, total_tokens := some 12 } }

/-- Second-pass response: final text, 5 prompt tokens. -/
def c7r2 : OAIChatResponse :=
  { choices := [{ message := { content := some "final" } }],
    usage := some { prompt_tokens := some 5, completion_tokens := some 3, total_tokens := some 8 } }

/-- The agent environment of the OpenAI two-pass scenario: the chat
oracle answers the tools-carrying first call with `c7r1` and the
follow-up call with `c7r2`. -/
def c7env : AgentEnv :=
  { agentEnvBase with
      jsonParse := fun _ => .ok (.obj []),
      jsonStringify := fun _ => "serialized",
      mcpFetch := fun _ _ => .ok (.obj [("result", .str "out")]),
      openaiChat := fun _ _ tools =>
        match tools with
        | some _ => .ok c7r1
        | none => .ok c7r2 }

/-- The tool-call records the two-pass scenario produces. -/
def c7records : List JSValue :=
  [.obj [("id", .str "call1"), ("name", .str "t1"),
         ("arguments", .obj []), ("output", .obj [])]]

/-- MCP environment whose search call succeeds with a small payload. -/
def c2menv : MCPEnv := { mcpEnvBase with firecrawlSearch := fun _ _ => .ok (.str "ok") }

/-- A Firecrawl search node with an inline server. -/
def c2mnode : WorkflowNode :=
  { id := "m1",
    data := { mcpServers := some [{ name := "Firecrawl", url := "u" }],
              mcpAction := some "search" } }

/-- A state carrying only the run input. -/
def c2mst : WorkflowState := { vars := [("input", .str "q")], chatHistory := [] }

/-- The envelope the search scenario produces. -/
def c2envelope : FirecrawlEnvelope :=
  { results := [{ server := "Firecrawl", tool := some "search", success := true,
                  data := some (.str "ok") }],
    extractedField := none,
    output := .str "ok",
    mcpServers := ["Firecrawl"],
    toolCalls := [{ name := "firecrawl_search",
                    arguments := .obj [("action", .str "search"),
                                       ("url", .str "https://example.com"),
                                       ("query", .str "q")],
                    output := .str "ok" }] }

/-- The post-state of the search scenario. -/
def c2mst' : WorkflowState :=
  { vars := [("input", .str "q"), ("lastOutput", .str "ok")], chatHistory := [] }

/-- A node naming an unimplemented generic server. -/
def c2gnode : WorkflowNode :=
  { id := "g1", data := { mcpServers := some [{ name := "Other", url := "u2" }] } }

/-- The per-server failure entry of the generic scenario. -/
def c2gentry : MCPResultEntry :=
  { server := "Other", success := false,
    error := some "MCP server \"Other\" execution not yet implemented. Server URL: u2" }

/-- Agent environment carrying a plain-string mock response. -/
def c2mockAgentEnv : AgentEnv := { agentEnvBase with mockAgentResponse := some "mockvalue" }

/-- A bare agent node. -/
def c2anode : WorkflowNode := { id := "a1", data := {} }

/-- The mock-path result of the agent scenario. -/
def c2mockResult : AgentResult :=
  { agentValue := .str "mockvalue", agentToolCalls := [], chatHistoryUpdates := [],
    variableUpdates := [("lastOutput", .str "mockvalue")] }

/-- Agent environment whose mock value parses to a one-entry JSON
object keyed `nodeA`. -/
def c6env : AgentEnv :=
  { agentEnvBase with
      mockAgentResponse := some "mockcfg",
      jsonParse := fun _ => .ok (.obj [("nodeA", .str "fixed output")]) }

/-- The node whose id matches the mock entry. -/
def c6node : WorkflowNode := { id := "nodeA", data := {} }

/-- An agent node requesting the groq provider. -/
def c1node : WorkflowNode := { id := "c1", data := { model := some "groq/llama-3.1-8b-instant" } }

/-- The base MCP environment with the fallback policy explicitly
disabled (`DEMO_MODE=false`). -/
def c3offEnv : MCPEnv := { mcpEnvBase with demoMode := some "false" }

/-- The provider-dispatch guard chain of `agent.ts` lines 123-478: the
parsed provider together with a truthy key for it. -/
def providerKeyAvailable (provider : String) (keys : APIKeys) : Bool :=
  (provider = "anthropic" ∧ strTruthy keys.anthropic) ||
  (provider = "openai" ∧ strTruthy keys.openai) ||
  (provider = "groq" ∧ strTruthy keys.groq) ||
  (provider = "gemini" ∧ strTruthy keys.gemini) ||
  (provider = "aimlapi" ∧ strTruthy keys.aimlapi)


section NestedValueLemmas

theorem noNull_lookupField {fs : List (String × JSValue)} {k : String} {v : JSValue}
    (h : JSValue.noNullFields fs = true) (hl : JSValue.lookupField fs k = some v) :
    v.noNull = true := by
  induction fs with
  | nil => simp [JSValue.lookupField] at hl
  | cons p fs ih =>
      obtain ⟨s, w⟩ := p
      rw [JSValue.noNullFields, Bool.and_eq_true] at h
      by_cases hk : (s == k) = true
      · simp [JSValue.lookupField, List.find?, hk] at hl
        exact hl ▸ h.1
      · simp only [Bool.not_eq_true] at hk
        simp only [JSValue.lookupField, List.find?, hk] at hl
        exact ih h.2 hl

theorem noNull_get? {xs : List JSValue} {i : Nat} {x : JSValue}
    (h : JSValue.noNullList xs = true) (hg : xs.get? i = some x) : x.noNull = true := by
  induction xs generalizing i with
  | nil => simp [List.get?] at hg
  | cons y ys ih =>
      rw [JSValue.noNullList, Bool.and_eq_true] at h
      cases i with
      | zero => simp [List.get?] at hg; exact hg ▸ h.1
      | succ n => simp only [List.get?] at hg; exact ih h.2 hg

theorem safeGet_noNull {v : JSValue} (k : String) (h : v.noNull = true) :
    (v.safeGet k).noNull = true := by
  cases v with
  | undef => simp [JSValue.safeGet, JSValue.noNull]
  | null => rw [JSValue.noNull] at h; cases h
  | bool b => simp [JSValue.safeGet, JSValue.noNull]
  | num n => simp [JSValue.safeGet, JSValue.noNull]
  | str s =>
      simp only [JSValue.safeGet]
      split
      · simp [JSValue.noNull]
      · split
        · rename_i i _
          cases hget : s.toList.get? i <;> simp [hget, JSValue.noNull, Option.elim]
        · simp [JSValue.noNull]
  | arr xs =>
      rw [JSValue.noNull] at h
      simp only [JSValue.safeGet]
      split
      · simp [JSValue.noNull]
      · split
        · rename_i i _
          cases hget : xs.get? i with
          | none => simp [hget, JSValue.noNull]
          | some x => simpa [hget] using noNull_get? h hget
        · simp [JSValue.noNull]
  | obj fs =>
      rw [JSValue.noNull] at h
      simp only [JSValue.safeGet]
      cases hl : JSValue.lookupField fs k with
      | none => simp [hl, JSValue.noNull]
      | some w => simpa [hl] using noNull_lookupField h hl

theorem strictGet_eq_safeGet {v : JSValue} (k : String) (h1 : v ≠ .null) (h2 : v ≠ .undef) :
    v.strictGet k = .ok (v.safeGet k) := by
  cases v <;> first | rfl | exact absurd rfl h1 | exact absurd rfl h2

theorem manualIndexSegs_undef : ∀ l : List String, manualIndexSegs .undef l = .undef := by
  intro l
  induction l with
  | nil => rfl
  | cons seg rest ih =>
      rw [manualIndexSegs]
      cases hp : parseArraySegment seg with
      | some ni => obtain ⟨name, idx⟩ := ni; simpa [JSValue.safeGet] using ih
      | none => simpa [JSValue.safeGet] using ih

theorem getNestedValueGo_eq_manual (parts : List String) :
    ∀ current : JSValue, current.noNull = true → current ≠ .undef →
      getNestedValueGo current parts = .ok (manualIndexSegs current parts) := by
  induction parts with
  | nil => intro c _ _; rfl
  | cons part rest ih =>
      intro c h hu
      have hnn : c ≠ .null := by intro e; rw [e, JSValue.noNull] at h; cases h
      have tail : ∀ next : JSValue, next.noNull = true →
          (match next with
            | .undef => (pure .undef : Except String JSValue)
            | _ => getNestedValueGo next rest) = .ok (manualIndexSegs next rest) := by
        intro next hn
        cases next with
        | undef => simp [manualIndexSegs_undef, pure, Except.pure]
        | null => rw [JSValue.noNull] at hn; cases hn
        | bool b => exact ih _ hn (by simp)
        | num n => exact ih _ hn (by simp)
        | str s => exact ih _ hn (by simp)
        | arr xs => exact ih _ hn (by simp)
        | obj fs => exact ih _ hn (by simp)
      rw [getNestedValueGo, manualIndexSegs]
      cases hp : parseArraySegment part with
      | some ni =>
          obtain ⟨name, idx⟩ := ni
          simp only [strictGet_eq_safeGet name hnn hu, bind, Except.bind, pure, Except.pure]
          exact tail _ (safeGet_noNull _ (safeGet_noNull _ h))
      | none =>
          simp only [bind, Except.bind, pure, Except.pure]
          exact tail _ (safeGet_noNull _ h)

end NestedValueLemmas

section SupportLemmas

theorem lookupField_setField (fs : List (String × JSValue)) (k : String) (v : JSValue) :
    JSValue.lookupField (setField fs k v) k = some v := by
  induction fs with
  | nil => simp [setField, JSValue.lookupField, List.find?]
  | cons p fs ih =>
      obtain ⟨k', w⟩ := p
      by_cases h : (k' == k) = true
      · simp [setField, h, JSValue.lookupField, List.find?]
      · simp only [Bool.not_eq_true] at h
        simpa [setField, h, JSValue.lookupField, List.find?] using ih

theorem getVar_setVar (s : WorkflowState) (k : String) (v : JSValue) :
    (s.setVar k v).getVar k = v := by
  unfold WorkflowState.getVar WorkflowState.setVar
  simp [lookupField_setField]

theorem getLastD_cons {α : Type} (l : List α) (d x : α) :
    ((d :: l).getLast?).getD x = (l.getLast?).getD d := by
  cases l with
  | nil => rfl
  | cons y ys =>
      rw [List.getLast?_cons_cons]
      obtain ⟨a, ha⟩ := Option.isSome_iff_exists.mp
        (List.getLast?_isSome.mpr (by simp) : ((y :: ys).getLast?).isSome)
      simp [ha]

theorem listStartsWith_append (n h t : List Char) (hs : listStartsWith n h = true) :
    listStartsWith n (h ++ t) = true := by
  induction n generalizing h with
  | nil => rfl
  | cons c ns ih =>
      cases h with
      | nil => simp [listStartsWith] at hs
      | cons x xs =>
          rw [List.cons_append, listStartsWith] at *
          simp only [Bool.and_eq_true] at hs ⊢
          exact ⟨hs.1, ih xs hs.2⟩

theorem hasSub_nil_needle (l : List Char) : hasSub l [] = true := by
  cases l <;> rfl

theorem hasSub_append (h t n : List Char) (hs : hasSub h n = true) :
    hasSub (h ++ t) n = true := by
  induction h with
  | nil =>
      rw [hasSub] at hs
      cases n with
      | nil => simpa using hasSub_nil_needle t
      | cons c cs => simp [List.isEmpty] at hs
  | cons x xs ih =>
      rw [hasSub] at hs
      rw [List.cons_append, hasSub]
      rcases Bool.or_eq_true .. |>.mp hs with h1 | h2
      · exact Bool.or_eq_true .. |>.mpr (Or.inl (listStartsWith_append _ _ _ h1))
      · exact Bool.or_eq_true .. |>.mpr (Or.inr (ih h2))

theorem string_toList_append (s t : String) : (s ++ t).toList = s.toList ++ t.toList := rfl

theorem jsIncludes_append_left (s t sub : String) (h : jsIncludes s sub = true) :
    jsIncludes (s ++ t) sub = true := by
  unfold jsIncludes at *
  rw [string_toList_append]
  exact hasSub_append _ _ _ h

theorem nullish_terminal (a b c m v : JSValue)
    (h : nullish a (nullish b (nullish c .undef)) = v) (hv : v ≠ .undef) :
    nullish a (nullish b (nullish c m)) = v := by
  unfold nullish at *
  cases a <;> cases b <;> cases c <;> simp_all

/-- `runFirecrawlServer` either throws (leaving the state alone) or
returns a Firecrawl envelope after writing its `output` to `lastOutput`. -/
theorem runFirecrawlServer_cases (env : MCPEnv) (node : WorkflowNode) (st : WorkflowState) :
    (∃ e, runFirecrawlServer env node st = (.error e, st)) ∨
    (∃ r, runFirecrawlServer env node st
      = (.ok (.firecrawl r), st.setVar "lastOutput" r.output)) := by
  unfold runFirecrawlServer firecrawlCatch
  dsimp only
  split
  · exact Or.inl ⟨_, rfl⟩
  · split
    · split
      · split
        · exact Or.inl ⟨_, rfl⟩
        · exact Or.inr ⟨_, rfl⟩
      · exact Or.inl ⟨_, rfl⟩
    · split
      · split
        · split
          · exact Or.inl ⟨_, rfl⟩
          · exact Or.inr ⟨_, rfl⟩
        · exact Or.inl ⟨_, rfl⟩
      · exact Or.inr ⟨_, rfl⟩

theorem mcpServerLoop_firecrawl (env : MCPEnv) (node : WorkflowNode) (names : List String) :
    ∀ (cfgs : List MCPServerConfig) (st : WorkflowState) (acc : List MCPResultEntry)
      (r : FirecrawlEnvelope) (st' : WorkflowState),
      mcpServerLoop env node names cfgs st acc = (.ok (.firecrawl r), st') →
      st'.getVar "lastOutput" = r.output := by
  intro cfgs
  induction cfgs with
  | nil =>
      intro st acc r st' h
      rw [mcpServerLoop] at h
      simp at h
  | cons cfg rest ih =>
      intro st acc r st' h
      rw [mcpServerLoop] at h
      split at h
      · rcases runFirecrawlServer_cases env node st with ⟨e, he⟩ | ⟨r2, hr⟩
        · rw [he] at h; simp at h
        · rw [hr] at h
          simp only [Prod.mk.injEq, Except.ok.injEq, MCPOutcome.firecrawl.injEq] at h
          obtain ⟨h1, h2⟩ := h
          subst h1; subst h2
          exact getVar_setVar _ _ _
      · split at h
        · exact ih _ _ _ _ h
        · exact ih _ _ _ _ h

theorem mcpServerLoop_generic (env : MCPEnv) (node : WorkflowNode) (names : List String) :
    ∀ (cfgs : List MCPServerConfig) (st : WorkflowState) (acc : List MCPResultEntry)
      (results : List MCPResultEntry) (ns : List String) (st' : WorkflowState),
      mcpServerLoop env node names cfgs st acc = (.ok (.generic results ns), st') →
      ∃ rest, results = acc.reverse ++ rest ∧
        st'.getVar "lastOutput" = (lastSuccessData rest).getD (st.getVar "lastOutput") := by
  intro cfgs
  induction cfgs with
  | nil =>
      intro st acc results ns st' h
      rw [mcpServerLoop] at h
      simp only [Prod.mk.injEq, Except.ok.injEq, MCPOutcome.generic.injEq] at h
      obtain ⟨⟨h1, _⟩, h3⟩ := h
      subst h3
      exact ⟨[], by simp [h1], by simp [lastSuccessData]⟩
  | cons cfg rest ih =>
      intro st acc results ns st' h
      rw [mcpServerLoop] at h
      split at h
      · rcases runFirecrawlServer_cases env node st with ⟨e, he⟩ | ⟨r2, hr⟩
        · rw [he] at h; simp at h
        · rw [hr] at h; simp at h
      · split at h
        case _ r heq =>
          obtain ⟨rest', hres, hst⟩ := ih _ _ _ _ _ h
          refine ⟨{ server := cfg.name,
                    tool := some (if r.tool = "" then "unknown" else r.tool),
                    success := true, data := some r.data } :: rest', ?_, ?_⟩
          · rw [hres]; simp
          · rw [hst, getVar_setVar]
            simp [lastSuccessData, List.filterMap_cons, getLastD_cons]
        case _ msg heq =>
          obtain ⟨rest', hres, hst⟩ := ih _ _ _ _ _ h
          refine ⟨{ server := cfg.name, error := some msg, success := false } :: rest', ?_, ?_⟩
          · rw [hres]; simp
          · rw [hst]
            simp [lastSuccessData, List.filterMap_cons]

theorem agentTry_state_unchanged (env : AgentEnv) (node : WorkflowNode) (state : WorkflowState)
    (apiKeys : Option APIKeys) :
    (executeAgentNodeTry env node state apiKeys).2.1 = state := by
  unfold executeAgentNodeTry
  cases apiKeys with
  | none => rfl
  | some keys =>
      dsimp only
      split
      · rfl
      · split
        · rfl
        · rfl

theorem agentTry_ok_shape (env : AgentEnv) (node : WorkflowNode) (state : WorkflowState)
    (apiKeys : Option APIKeys) (r : AgentResult) (st : WorkflowState) (tr : List String)
    (h : executeAgentNodeTry env node state apiKeys = (.ok r, st, tr)) :
    r.variableUpdates = [("lastOutput", r.agentValue)] := by
  unfold executeAgentNodeTry at h
  cases apiKeys with
  | none => simp at h
  | some keys =>
      dsimp only at h
      split at h
      case _ rr heq =>
        simp only [Prod.mk.injEq, Except.ok.injEq] at h
        obtain ⟨hr, -, -⟩ := h
        subst hr
        repeat' split at heq
        all_goals
          first
            | exact Option.noConfusion heq
            | (rw [Option.some.injEq] at heq; subst heq; rfl)
      case _ heq =>
        split at h
        · simp at h
        · simp only [Prod.mk.injEq, Except.ok.injEq] at h
          obtain ⟨hr, -, -⟩ := h
          subst hr
          rfl

theorem agentCatch_ok_shape (env : AgentEnv) (node : WorkflowNode) (st : WorkflowState)
    (msg : String) (r : AgentResult) (h : executeAgentCatch env node st msg = .ok r) :
    r.variableUpdates = [("lastOutput", r.agentValue)] := by
  unfold executeAgentCatch at h
  dsimp only at h
  by_cases hf : fallbackEnabled env.useFallbackData env.demoMode = true
  · rw [if_pos hf, Except.ok.injEq] at h
    subst h
    rfl
  · rw [if_neg hf] at h
    by_cases h1 : (jsIncludes msg "API key" || jsIncludes msg "api_key") = true
    · rw [if_pos h1] at h; exact Except.noConfusion h
    · rw [if_neg h1] at h
      by_cases h2 : (jsIncludes msg "rate limit" || jsIncludes msg "429") = true
      · rw [if_pos h2] at h; exact Except.noConfusion h
      · rw [if_neg h2] at h
        by_cases h3 : jsIncludes msg "No API key available" = true
        · rw [if_pos h3] at h; exact Except.noConfusion h
        · rw [if_neg h3] at h; exact Except.noConfusion h

theorem agent_ok_shape (env : AgentEnv) (node : WorkflowNode) (state : WorkflowState)
    (apiKeys : Option APIKeys) (r : AgentResult) (st : WorkflowState) (tr : List String)
    (h : executeAgentNode env node state apiKeys = (.ok r, st, tr)) :
    r.variableUpdates = [("lastOutput", r.agentValue)] := by
  unfold executeAgentNode at h
  rcases htry : executeAgentNodeTry env node state apiKeys with ⟨res, st0, tr0⟩
  rw [htry] at h
  cases res with
  | ok r0 =>
      simp only [Prod.mk.injEq, Except.ok.injEq] at h
      obtain ⟨hr, -, -⟩ := h
      subst hr
      exact agentTry_ok_shape _ _ _ _ _ _ _ htry
  | error e =>
      simp only [Prod.mk.injEq] at h
      obtain ⟨hc, -, -⟩ := h
      exact agentCatch_ok_shape _ _ _ _ _ hc

theorem noNull_generateFallback (q : String) :
    (generateFallbackSearchResults q).noNull = true := by
  unfold generateFallbackSearchResults
  dsimp only
  split
  · simp [stockFallbackResults, searchHit, JSValue.noNull, JSValue.noNullList,
      JSValue.noNullFields]
  · split
    · simp [amazonFallbackResults, searchHit, JSValue.noNull, JSValue.noNullList,
        JSValue.noNullFields]
    · simp [genericFallbackResults, searchHit, JSValue.noNull, JSValue.noNullList,
        JSValue.noNullFields]

theorem generateFallback_shape (q : String) :
    ∃ hits, generateFallbackSearchResults q = .obj [("web", .arr hits)] ∧ hits ≠ [] := by
  unfold generateFallbackSearchResults
  dsimp only
  split
  · exact ⟨_, rfl, by simp [stockFallbackResults]⟩
  · split
    · exact ⟨_, rfl, by simp [amazonFallbackResults]⟩
    · exact ⟨_, rfl, by simp [genericFallbackResults]⟩

theorem extractFieldSwitch_webPayload_ok (hits : List JSValue) (field : String) :
    ∃ v, extractFieldSwitch (.obj [("web", .arr hits)]) field = .ok v := by
  unfold extractFieldSwitch
  split
  all_goals exact ⟨_, rfl⟩

theorem extractField_generateFallback_ok (q field : String) (p : Option String) :
    ∃ v, extractField (generateFallbackSearchResults q) field p = .ok v := by
  obtain ⟨hits, hshape, -⟩ := generateFallback_shape q
  have hnn := noNull_generateFallback q
  rw [hshape] at hnn ⊢
  unfold extractField
  by_cases hf : field = "full"
  · rw [if_pos hf]
    exact ⟨_, rfl⟩
  · rw [if_neg hf]
    split
    · rename_i pth
      by_cases hpth : pth = ""
      · rw [if_pos hpth]
        exact extractFieldSwitch_webPayload_ok hits "custom"
      · rw [if_neg hpth]
        exact ⟨_, getNestedValueGo_eq_manual _ _ hnn (fun h => JSValue.noConfusion h)⟩
    · exact extractFieldSwitch_webPayload_ok hits field

end SupportLemmas

/-! ## Claim theorems -/

/-- C10: for every value `data` and every optional custom path,
`extractField data "full"` returns `data` itself unchanged (identity
law), regardless of the shape of `data`. -/
theorem c10_extractField_full_identity (data : JSValue) (customPath : Option String) :
    extractField data "full" customPath = .ok data := rfl

/-- C4 (counterexample): at the concrete object binding `a` to `null`
and the path `a.b[0]`, `extractField(obj, "custom", path)` throws a
`TypeError` — the `current[arrayName]` access of the `name[index]`
branch is not optional-chained — instead of returning `undefined`,
falsifying the claim that any absent intermediate segment yields
`undefined` without throwing. -/
theorem c4_counterexample_null_intermediate_throws :
    extractField (JSValue.obj [("a", JSValue.null)]) "custom" (some "a.b[0]")
      = .error "TypeError: Cannot read properties of null (reading b)" := rfl

/-- C4 (amended): for every defined object containing no `null` anywhere
and every non-empty path, `extractField(obj, "custom", path)` returns,
without throwing, exactly the value manual indexing along the
dot-separated segments yields, with `undefined` as soon as any
intermediate segment is absent; with a `null` intermediate value
followed by a `name[index]` segment the function instead throws. -/
theorem c4_extractField_custom_matches_manual_indexing
    (obj : JSValue) (path : String)
    (hnn : obj.noNull = true) (hdef : obj ≠ .undef) (hp : path ≠ "") :
    extractField obj "custom" (some path) = .ok (manualIndex obj path) := by
  show (if path = "" then extractFieldSwitch obj "custom" else getNestedValue obj path)
      = .ok (manualIndex obj path)
  rw [if_neg hp]
  exact getNestedValueGo_eq_manual _ _ hnn hdef

/-- C4 (witness): the amended theorem applied at a concrete null-free
object and path, every hypothesis discharged concretely. -/
theorem c4_witness :
    (JSValue.obj [("a", JSValue.obj [("b", JSValue.arr [JSValue.num 10, JSValue.num 20])])]).noNull
      = true ∧
    extractField
        (JSValue.obj [("a", JSValue.obj [("b", JSValue.arr [JSValue.num 10, JSValue.num 20])])])
        "custom" (some "a.b[1]")
      = .ok (manualIndex
          (JSValue.obj [("a", JSValue.obj [("b", JSValue.arr [JSValue.num 10, JSValue.num 20])])])
          "a.b[1]") :=
  ⟨by simp [JSValue.noNull, JSValue.noNullList, JSValue.noNullFields],
   c4_extractField_custom_matches_manual_indexing _ _
     (by simp [JSValue.noNull, JSValue.noNullList, JSValue.noNullFields])
     (fun h => JSValue.noConfusion h) (by decide)⟩

/-- C9: for every MCP node with no inline server list whose single
server identifier fails to resolve (or with no identifier at all, i.e.
an empty resolved list), `executeMCPNode` returns the error-object
result rather than throwing, and leaves the state unchanged. -/
theorem c9_unresolved_server_yields_error_result
    (env : MCPEnv) (node : WorkflowNode) (state : WorkflowState)
    (hInline : node.data.mcpServers = none ∨ node.data.mcpServers = some [])
    (hres : ∀ sid, node.data.mcpServerId = some sid → env.resolveMCPServer sid = none) :
    executeMCPNode env node state
      = (.ok (.errorResult "No MCP servers configured or could not resolve server"), state) := by
  rcases hInline with h | h <;>
  · cases hm : node.data.mcpServerId with
    | none => simp [executeMCPNode, hm, h, strTruthy]
    | some sid =>
        by_cases hsid : sid = "" <;>
          simp [executeMCPNode, hm, h, hsid, strTruthy, hres sid hm]

/-- C9 (witness): the theorem applied to a node carrying only an
unresolvable server identifier in the baseline environment. -/
theorem c9_witness :
    executeMCPNode mcpEnvBase { id := "n1", data := { mcpServerId := some "missing" } } emptyState
      = (.ok (.errorResult "No MCP servers configured or could not resolve server"), emptyState) :=
  c9_unresolved_server_yields_error_result mcpEnvBase
    { id := "n1", data := { mcpServerId := some "missing" } } emptyState
    (Or.inl rfl) (fun _ _ => rfl)

/-- C5 (counterexample): on a 404 response with body `BODYTEXT`, the
executor throws `HTTP request failed: HTTP 404: Not Found` — the error
carries the status and status text but not the response body, falsifying
the claim that the thrown error carries status and body. -/
theorem c5_counterexample_error_lacks_body :
    executeHTTPNode (httpEnvWith resp404) plainHTTPNode emptyState
      = .error "HTTP request failed: HTTP 404: Not Found" ∧
    jsIncludes "HTTP request failed: HTTP 404: Not Found" "BODYTEXT" = false :=
  ⟨rfl, by decide⟩

/-- C5 (amended): for every HTTP step whose fetch resolves,
`executeHTTPNode` returns the full
status/statusText/headers/data/url/method record on a 2xx response, and
on a non-2xx response throws an error carrying the response status and
status text (the body is read but not included in the error). -/
theorem c5_http_success_shape_and_error_statusText
    (env : HTTPEnv) (node : WorkflowNode) (state : WorkflowState) (resp : FetchResponse)
    (hfetch : env.fetch (buildHTTPRequest env node state) = .ok resp) :
    (resp.isOk = true →
      executeHTTPNode env node state
        = .ok { status := resp.status, statusText := resp.statusText, headers := resp.headers,
                data := match env.jsonParse resp.body with
                        | .ok v => v
                        | .error _ => .str resp.body,
                url := (buildHTTPRequest env node state).url,
                method := (buildHTTPRequest env node state).method }) ∧
    (resp.isOk = false →
      executeHTTPNode env node state
        = .error ("HTTP request failed: HTTP " ++ toString resp.status ++ ": " ++
            resp.statusText)) := by
  unfold executeHTTPNode
  dsimp only
  rw [hfetch]
  constructor
  · intro hok; simp [hok]
  · intro hnok; simp [hnok]

/-- C5 (witness): the amended theorem applied to the concrete 200 and
404 scenarios. -/
theorem c5_witness :
    resp200.isOk = true ∧
    executeHTTPNode (httpEnvWith resp200) plainHTTPNode emptyState
      = .ok { status := 200, statusText := "OK", headers := [("content-type", "text/plain")],
              data := .str "PAYLOAD", url := "https://api.test/x", method := "GET" } ∧
    resp404.isOk = false ∧
    executeHTTPNode (httpEnvWith resp404) plainHTTPNode emptyState
      = .error "HTTP request failed: HTTP 404: Not Found" :=
  ⟨by decide,
   (c5_http_success_shape_and_error_statusText (httpEnvWith resp200) plainHTTPNode emptyState
     resp200 rfl).1 (by decide),
   by decide,
   (c5_http_success_shape_and_error_statusText (httpEnvWith resp404) plainHTTPNode emptyState
     resp404 rfl).2 (by decide)⟩

/-- C7: in the OpenAI tool-calling path, the usage record left after the
second completion call is `combineUsage` of both calls' usage, which sums
`prompt_tokens`, `completion_tokens` and `total_tokens` field-wise
(missing fields counting as 0); in particular 10 prompt tokens in pass 1
plus 5 in pass 2 combine to 15; and `openaiToolsBranch` indeed returns
`combineUsage` of the two responses' usage whenever the model requests
tool calls and both calls succeed. -/
theorem c7_openai_two_pass_usage_summed :
    (∀ (u1 : LLMUsage) (u2 : Option LLMUsage),
      (combineUsage u1 u2).prompt_tokens
          = some (u1.prompt_tokens.getD 0 + (u2.bind (·.prompt_tokens)).getD 0) ∧
      (combineUsage u1 u2).completion_tokens
          = some (u1.completion_tokens.getD 0 + (u2.bind (·.completion_tokens)).getD 0) ∧
      (combineUsage u1 u2).total_tokens
          = some (u1.total_tokens.getD 0 + (u2.bind (·.total_tokens)).getD 0)) ∧
    (combineUsage { prompt_tokens := some 10 } (some { prompt_tokens := some 5 })).prompt_tokens
        = some 15 ∧
    (∀ (env : AgentEnv) (modelName : String) (messages : List ChatMsg)
        (mcpTools : List MCPTool) (r1 : OAIChatResponse) (c1 : OAIChoice)
        (calls : List OAIToolCallReq) (r2 : OAIChatResponse) (c2 : OAIChoice)
        (records : List JSValue),
      env.openaiChat modelName (messages.map .chat) (some (buildOAITools mcpTools)) = .ok r1 →
      r1.choices.get? 0 = some c1 →
      c1.message.tool_calls = some calls →
      calls ≠ [] →
      env.openaiChat modelName
          ((messages.map .chat) ++ [TranscriptMsg.assistant c1.message] ++
            ((calls.map (execOneToolCall env mcpTools)).map (·.1))) none = .ok r2 →
      r2.choices.get? 0 = some c2 →
      buildOAIToolCallRecords env ((calls.map (execOneToolCall env mcpTools)).map (·.1)) calls 0
          = .ok records →
      ∃ tr, openaiToolsBranch env modelName messages mcpTools
          = (.ok (c2.message.content.getD "", combineUsage (r1.usage.getD {}) r2.usage, records),
             tr)) := by
  refine ⟨fun u1 u2 => ⟨rfl, rfl, rfl⟩, rfl, ?_⟩
  intro env modelName messages mcpTools r1 c1 calls r2 c2 records h1 hc1 ht hne h2 hc2 hrec
  unfold openaiToolsBranch
  dsimp only
  rw [h1]
  dsimp only
  rw [hc1]
  dsimp only
  rw [ht]
  dsimp only [Option.getD]
  rw [if_pos (List.length_pos.mpr hne)]
  rw [h2]
  dsimp only
  rw [hc2]
  dsimp only
  rw [hrec]
  exact ⟨_, rfl⟩

/-- C7 (witness): the 10-plus-5 instance, and the branch connection
applied to the concrete two-pass scenario. -/
theorem c7_witness :
    (combineUsage { prompt_tokens := some 10 } (some { prompt_tokens := some 5 })).prompt_tokens
        = some 15 ∧
    ∃ tr, openaiToolsBranch c7env "gpt" [] c7Tools
        = (.ok ("final", combineUsage (c7r1.usage.getD {}) c7r2.usage, c7records), tr) :=
  ⟨c7_openai_two_pass_usage_summed.2.1,
   c7_openai_two_pass_usage_summed.2.2 c7env "gpt" [] c7Tools c7r1
     { message := c7msg1 } [c7call]
     c7r2 { message := { content := some "final" } } c7records
     rfl rfl rfl (fun h => List.noConfusion h) rfl rfl rfl⟩

/-- C8: `executeAgentNode` never mutates its state argument — on every
path (missing keys, mock short-circuit, every provider branch, the error
classification and the demo fallback) the state component of the result
is the argument state itself, all changes being conveyed only in the
returned `chatHistoryUpdates`/`variableUpdates` proposal fields. -/
theorem c8_executeAgentNode_never_mutates_state (env : AgentEnv) (node : WorkflowNode)
    (state : WorkflowState) (apiKeys : Option APIKeys) :
    (executeAgentNode env node state apiKeys).2.1 = state := by
  unfold executeAgentNode
  rcases htry : executeAgentNodeTry env node state apiKeys with ⟨res, st0, tr0⟩
  have h := agentTry_state_unchanged env node state apiKeys
  rw [htry] at h
  cases res <;> exact h

/-- C2: after every successful executor invocation the recorded
`lastOutput` agrees with the output surfaced by the step's result: a
Firecrawl envelope's `output` field equals the new `lastOutput`; a
generic-loop result leaves in `lastOutput` the `data` of its last
successful entry (unchanged when there is none); and the agent
executor's proposed `__variableUpdates.lastOutput` equals its
`__agentValue`. -/
theorem c2_lastOutput_equals_surfaced_output
    (menv : MCPEnv) (aenv : AgentEnv) (mnode anode : WorkflowNode)
    (mst ast : WorkflowState) (keys : Option APIKeys) :
    (∀ r st', executeMCPNode menv mnode mst = (.ok (.firecrawl r), st') →
      st'.getVar "lastOutput" = r.output) ∧
    (∀ results ns st', executeMCPNode menv mnode mst = (.ok (.generic results ns), st') →
      st'.getVar "lastOutput" = (lastSuccessData results).getD (mst.getVar "lastOutput")) ∧
    (∀ r st' tr, executeAgentNode aenv anode ast keys = (.ok r, st', tr) →
      JSValue.lookupField r.variableUpdates "lastOutput" = some r.agentValue) := by
  refine ⟨?_, ?_, ?_⟩
  · intro r st' h
    unfold executeMCPNode at h
    dsimp only at h
    repeat' split at h
    all_goals
      first
        | exact mcpServerLoop_firecrawl _ _ _ _ _ _ _ _ h
        | simp at h
  · intro results ns st' h
    unfold executeMCPNode at h
    dsimp only at h
    repeat' split at h
    all_goals
      first
        | (obtain ⟨rest, hres, hst⟩ := mcpServerLoop_generic _ _ _ _ _ _ _ _ _ h
           simp only [List.reverse_nil, List.nil_append] at hres
           rw [hres]
           exact hst)
        | simp at h
  · intro r st' tr h
    rw [agent_ok_shape _ _ _ _ _ _ _ h]
    simp [JSValue.lookupField, List.find?]

/-- C2 (witness): the theorem applied to a concrete successful Firecrawl
search, a concrete generic-server loop, and a concrete mock-path agent
invocation. -/
theorem c2_witness :
    c2mst'.getVar "lastOutput" = c2envelope.output ∧
    c2mst.getVar "lastOutput" = (lastSuccessData [c2gentry]).getD (c2mst.getVar "lastOutput") ∧
    JSValue.lookupField c2mockResult.variableUpdates "lastOutput" = some c2mockResult.agentValue :=
  ⟨(c2_lastOutput_equals_surfaced_output c2menv agentEnvBase c2mnode c2anode c2mst emptyState
      none).1 c2envelope c2mst' rfl,
   (c2_lastOutput_equals_surfaced_output mcpEnvBase agentEnvBase c2gnode c2anode c2mst emptyState
      none).2.1 [c2gentry] ["Other"] c2mst rfl,
   (c2_lastOutput_equals_surfaced_output mcpEnvBase c2mockAgentEnv c2gnode c2anode c2mst emptyState
      (some {})).2.2 c2mockResult emptyState [] rfl⟩

/-- C6: when the mock-response environment value parses as a JSON object
and the id/name/default lookup chain finds an entry, `executeAgentNode`
short-circuits before any provider call (the call trace is empty, the
state untouched) and returns that entry as the step value, also proposing
it as `lastOutput`. -/
theorem c6_mock_response_short_circuits
    (env : AgentEnv) (node : WorkflowNode) (state : WorkflowState) (keys : APIKeys)
    (s : String) (fs : List (String × JSValue)) (v : JSValue)
    (hmock : env.mockAgentResponse = some s) (hs : s ≠ "")
    (hparse : env.jsonParse s = .ok (.obj fs))
    (hfound : nullish ((JSValue.obj fs).safeGet node.id)
        (nullish
          (if strTruthy node.data.nodeName then
             (JSValue.obj fs).safeGet (node.data.nodeName.getD "")
           else .undef)
          (nullish ((JSValue.obj fs).safeGet "default") .undef)) = v)
    (hv : v ≠ .undef) :
    ∃ r, executeAgentNode env node state (some keys) = (.ok r, state, []) ∧
      r.agentValue = v ∧ r.variableUpdates = [("lastOutput", v)] := by
  have hchain : nullish ((JSValue.obj fs).safeGet node.id)
      (nullish
        (if strTruthy node.data.nodeName then
           (JSValue.obj fs).safeGet (node.data.nodeName.getD "")
         else .undef)
        (nullish ((JSValue.obj fs).safeGet "default") (.obj fs))) = v :=
    nullish_terminal _ _ _ _ _ hfound hv
  have htry : executeAgentNodeTry env node state (some keys)
      = (.ok { agentValue := v, agentToolCalls := [],
               chatHistoryUpdates :=
                 if node.data.includeChatHistory then
                   [{ role := "user", content := jsOrStr node.data.instructions "" },
                    { role := "assistant", content := mockContentString env v }]
                 else [],
               variableUpdates := [("lastOutput", v)] }, state, []) := by
    unfold executeAgentNodeTry
    dsimp only
    rw [hmock]
    dsimp only
    rw [if_pos hs, hparse]
    dsimp only
    rw [if_pos (⟨rfl, rfl⟩ : (JSValue.obj fs).truthy = true ∧ typeofObject (.obj fs) = true)]
    simp only [hchain]
  refine ⟨{ agentValue := v, agentToolCalls := [],
            chatHistoryUpdates :=
              if node.data.includeChatHistory then
                [{ role := "user", content := jsOrStr node.data.instructions "" },
                 { role := "assistant", content := mockContentString env v }]
              else [],
            variableUpdates := [("lastOutput", v)] }, ?_, rfl, rfl⟩
  unfold executeAgentNode
  simp only [htry]

/-- C6 (witness): the theorem applied to the concrete mock value
`\x7b "nodeA": "fixed output" \x7d` and a node with id `nodeA`: the agent
executor returns `fixed output` with an empty provider-call trace. -/
theorem c6_witness :
    ∃ r, executeAgentNode c6env c6node emptyState (some {}) = (.ok r, emptyState, []) ∧
      r.agentValue = .str "fixed output" ∧
      r.variableUpdates = [("lastOutput", .str "fixed output")] :=
  c6_mock_response_short_circuits c6env c6node emptyState {} "mockcfg"
    [("nodeA", .str "fixed output")] (.str "fixed output")
    rfl (by decide) rfl rfl (fun h => JSValue.noConfusion h)

/-- C1 (counterexample): for the concrete node requesting provider
`groq` with no groq key supplied and the demo fallback disabled,
`executeAgentNode` throws the generic re-classified message, which does
not name the requested provider — falsifying the claim that the thrown
error's message names the provider. -/
theorem c1_counterexample_message_not_naming_provider :
    (executeAgentNode agentEnvBase c1node emptyState (some {})).1
      = .error "Missing API key. Please add your LLM provider key in Settings." ∧
    jsIncludes "Missing API key. Please add your LLM provider key in Settings." "groq" = false :=
  ⟨rfl, by decide⟩

/-- C1 (amended): when the parsed provider has no supplied key, the
dispatch raises internally an error naming the provider (`No API key
available for provider: ...`), but the function's own catch intercepts
it: with the demo fallback disabled it re-throws the fixed message
`Missing API key. Please add your LLM provider key in Settings.`, which
does not depend on (nor name) the requested provider; with the fallback
enabled it returns a fallback result instead of throwing. -/
theorem c1_missing_provider_key_classified_message
    (env : AgentEnv) (node : WorkflowNode) (state : WorkflowState) (keys : APIKeys)
    (hmock : env.mockAgentResponse = none)
    (hkey : providerKeyAvailable
        (parseModelString (jsOrStr node.data.model "anthropic/claude-sonnet-4-5-20250929")).1 keys
      = false)
    (hfb : env.useFallbackData ≠ some "true") (hdm : env.demoMode = some "false") :
    (executeAgentNode env node state (some keys)).1
      = .error "Missing API key. Please add your LLM provider key in Settings." := by
  have h1 : ¬((parseModelString (jsOrStr node.data.model "anthropic/claude-sonnet-4-5-20250929")).1
      = "anthropic" ∧ strTruthy keys.anthropic = true) := fun hc => by
    simp [providerKeyAvailable, hc.1, hc.2] at hkey
  have h2 : ¬((parseModelString (jsOrStr node.data.model "anthropic/claude-sonnet-4-5-20250929")).1
      = "openai" ∧ strTruthy keys.openai = true) := fun hc => by
    simp [providerKeyAvailable, hc.1, hc.2] at hkey
  have h3 : ¬((parseModelString (jsOrStr node.data.model "anthropic/claude-sonnet-4-5-20250929")).1
      = "groq" ∧ strTruthy keys.groq = true) := fun hc => by
    simp [providerKeyAvailable, hc.1, hc.2] at hkey
  have h4 : ¬((parseModelString (jsOrStr node.data.model "anthropic/claude-sonnet-4-5-20250929")).1
      = "gemini" ∧ strTruthy keys.gemini = true) := fun hc => by
    simp [providerKeyAvailable, hc.1, hc.2] at hkey
  have h5 : ¬((parseModelString (jsOrStr node.data.model "anthropic/claude-sonnet-4-5-20250929")).1
      = "aimlapi" ∧ strTruthy keys.aimlapi = true) := fun hc => by
    simp [providerKeyAvailable, hc.1, hc.2] at hkey
  have htry : executeAgentNodeTry env node state (some keys)
      = (.error ("No API key available for provider: "
          ++ (parseModelString (jsOrStr node.data.model "anthropic/claude-sonnet-4-5-20250929")).1),
         state, []) := by
    unfold executeAgentNodeTry
    dsimp only
    rw [hmock]
    dsimp only
    rw [if_neg h1, if_neg h2, if_neg h3, if_neg h4, if_neg h5]
  have hfbe : fallbackEnabled env.useFallbackData env.demoMode = false := by
    rw [fallbackEnabled, hdm]
    simp only [beq_self_eq_true, Bool.not_true, Bool.or_false, beq_eq_false_iff_ne, ne_eq]
    exact hfb
  have hinc : (jsIncludes ("No API key available for provider: "
        ++ (parseModelString (jsOrStr node.data.model "anthropic/claude-sonnet-4-5-20250929")).1)
        "API key"
      || jsIncludes ("No API key available for provider: "
        ++ (parseModelString (jsOrStr node.data.model "anthropic/claude-sonnet-4-5-20250929")).1)
        "api_key") = true := by
    rw [jsIncludes_append_left _ _ _ (by decide)]
    rfl
  unfold executeAgentNode
  rw [htry]
  dsimp only
  unfold executeAgentCatch
  dsimp only
  rw [if_neg (by simp [hfbe]), if_pos hinc]

/-- C1 (witness): the amended theorem applied to the concrete groq node
with empty keys and fallback disabled. -/
theorem c1_witness :
    providerKeyAvailable
        (parseModelString (jsOrStr c1node.data.model "anthropic/claude-sonnet-4-5-20250929")).1 {}
      = false ∧
    (executeAgentNode agentEnvBase c1node emptyState (some {})).1
      = .error "Missing API key. Please add your LLM provider key in Settings." :=
  ⟨by decide,
   c1_missing_provider_key_classified_message agentEnvBase c1node emptyState {}
     rfl (by decide) (by decide) rfl⟩

/-- C3: for every Firecrawl-named server step whose configured action is
`search` and whose backend search call throws: with the fallback policy
enabled (`USE_FALLBACK_DATA` is `true` or `DEMO_MODE` is not `false`),
`executeMCPNode` returns an envelope with the `_fallback` marker set and
a single result entry whose `data` is the non-empty synthetic search
payload; with the policy disabled, it re-throws the descriptive error
`Firecrawl search failed: ...` leaving the state unchanged. -/
theorem c3_firecrawl_search_fallback_policy
    (env : MCPEnv) (node : WorkflowNode) (state : WorkflowState)
    (cfg : MCPServerConfig) (rest : List MCPServerConfig) (e : String)
    (hservers : node.data.mcpServers = some (cfg :: rest))
    (hid : strTruthy node.data.mcpServerId = false)
    (hfc : jsIncludes (lowerString cfg.name) "firecrawl" = true)
    (hkey : strTruthy env.firecrawlKey = true)
    (haction : node.data.mcpAction = some "search")
    (hcall : env.firecrawlSearch (getSearchQuery env node.data state)
        (jsOrNum node.data.searchLimit 5) = .error e) :
    (fallbackEnabled env.useFallbackData env.demoMode = true →
      ∃ r st' entry hits,
        executeMCPNode env node state = (.ok (.firecrawl r), st') ∧
        r.fallbackFlag = true ∧ r.results = [entry] ∧
        entry.data = some (.obj [("web", .arr hits)]) ∧ hits ≠ []) ∧
    (fallbackEnabled env.useFallbackData env.demoMode = false →
      executeMCPNode env node state
        = (.error ("Firecrawl search failed: " ++ e), state)) := by
  have hexec : executeMCPNode env node state = runFirecrawlServer env node state := by
    unfold executeMCPNode
    dsimp only
    rw [hid, hservers]
    rw [if_neg (fun h : false = true => Bool.noConfusion h)]
    simp only [Option.getD_some, List.isEmpty_cons]
    rw [if_neg (fun h : false = true => Bool.noConfusion h)]
    rw [mcpServerLoop, if_pos hfc]
  have hrun : runFirecrawlServer env node state = firecrawlCatch env node state "search" e := by
    unfold runFirecrawlServer
    dsimp only
    rw [if_neg (by simp [hkey]), haction]
    simp [jsOrStr, hcall]
  refine ⟨?_, ?_⟩
  · intro hOn
    obtain ⟨ov, hov⟩ : ∃ ov,
        (if strTruthy node.data.outputField ∧ node.data.outputField ≠ some "full" then
          extractField (generateFallbackSearchResults (getSearchQuery env node.data state))
            (node.data.outputField.getD "") node.data.customOutputPath
        else .ok (generateFallbackSearchResults (getSearchQuery env node.data state)))
        = .ok ov := by
      by_cases hc : strTruthy node.data.outputField = true ∧ node.data.outputField ≠ some "full"
      · rw [if_pos hc]
        exact extractField_generateFallback_ok _ _ _
      · rw [if_neg hc]
        exact ⟨_, rfl⟩
    obtain ⟨hits, hshape, hne⟩ := generateFallback_shape (getSearchQuery env node.data state)
    refine ⟨{ results := [{ server := "Firecrawl", tool := some "search", success := false,
                            error := some "Using fallback data",
                            data := some (generateFallbackSearchResults
                              (getSearchQuery env node.data state)) }],
              extractedField := node.data.outputField,
              output := ov,
              mcpServers := ["Firecrawl"],
              toolCalls := [{ name := "firecrawl_" ++ "search",
                              arguments := .obj [("action", .str "search"),
                                                 ("query", .str (getSearchQuery env node.data state))],
                              output := generateFallbackSearchResults
                                (getSearchQuery env node.data state) }],
              fallbackFlag := true },
            state.setVar "lastOutput" ov,
            { server := "Firecrawl", tool := some "search", success := false,
              error := some "Using fallback data",
              data := some (generateFallbackSearchResults (getSearchQuery env node.data state)) },
            hits, ?_, rfl, rfl, by rw [hshape], hne⟩
    rw [hexec, hrun]
    unfold firecrawlCatch
    dsimp only
    rw [if_pos ⟨hOn, rfl⟩]
    simp only [hov]
  · intro hOff
    rw [hexec, hrun]
    unfold firecrawlCatch
    dsimp only
    rw [if_neg (by simp [hOff])]
    rfl

/-- C3 (witness): the theorem applied to the concrete failing-search
scenario — fallback enabled by default (both switches unset), and
explicitly disabled via `DEMO_MODE=false`. -/
theorem c3_witness :
    (∃ r st' entry hits,
      executeMCPNode mcpEnvBase c2mnode c2mst = (.ok (.firecrawl r), st') ∧
      r.fallbackFlag = true ∧ r.results = [entry] ∧
      entry.data = some (.obj [("web", .arr hits)]) ∧ hits ≠ []) ∧
    executeMCPNode c3offEnv c2mnode c2mst
      = (.error "Firecrawl search failed: network failure", c2mst) :=
  ⟨(c3_firecrawl_search_fallback_policy mcpEnvBase c2mnode c2mst
      { name := "Firecrawl", url := "u" } [] "network failure"
      rfl rfl (by decide) rfl rfl rfl).1 rfl,
   (c3_firecrawl_search_fallback_policy c3offEnv c2mnode c2mst
      { name := "Firecrawl", url := "u" } [] "network failure"
      rfl rfl (by decide) rfl rfl rfl).2 (by decide)⟩

end AetherMind
